import Mathlib

/-!
# Verification of the four-way-pong lobby/game server

Shallow embedding of `src/index.js`: a real-time four-player Pong
coordinator.  Lobbies live in a process-wide map from lobby code to lobby
state; each lobby holds an ordered player list, a game state (status, ball,
paddles, scores) and an optional tick-loop handle.  JavaScript numbers are
modelled as exact rationals (`ℚ`); the one JS-specific numeric quirk that
matters — `scores[k]++` when `scores[k]` is `undefined` yields `NaN` — is
modelled by giving score entries the type `Option ℚ` with `none` standing
for `NaN`.  `Math.random() > 0.5` draws and freshly generated identifiers
are passed in as explicit parameters.  Broadcasts are modelled as the list
of messages a handler emits to the lobby's attached clients.
-/

namespace FourWayPong

/-- The four table sides (JS string constants TOP/RIGHT/BOTTOM/LEFT). -/
inductive Pos where
  | TOP
  | RIGHT
  | BOTTOM
  | LEFT
deriving DecidableEq, Repr

/-- Paddle movement directions (JS string constants UP/DOWN/LEFT/RIGHT). -/
inductive Direction where
  | UP
  | DOWN
  | LEFT
  | RIGHT
deriving DecidableEq, Repr

/-- Game status (JS string constants WAITING/PLAYING/GAME_OVER). -/
inductive GStatus where
  | WAITING
  | PLAYING
  | GAME_OVER
deriving DecidableEq, Repr

/-- The ball: position and velocity on the 600×600 playfield. -/
structure Ball where
  x : ℚ
  y : ℚ
  velocityX : ℚ
  velocityY : ℚ
deriving DecidableEq, Repr

/-- A paddle, as built by `startGame` in `src/index.js`. -/
structure Paddle where
  playerId : String
  position : Pos
  x : ℚ
  y : ℚ
  width : ℚ
  height : ℚ
deriving DecidableEq, Repr

/-- A player entry in a lobby's `players` array. -/
structure Player where
  id : String
  name : String
  isReady : Bool
  position : Pos
deriving DecidableEq, Repr

/-- The `scores` object: a JS object keyed by player id.  A value of
`some none` models a `NaN` entry (produced by incrementing a missing key);
`none` means the key is absent. -/
def ScoresMap : Type := String → Option (Option ℚ)

/-- JS `scores[k] = v`. -/
def scoresSet (m : ScoresMap) (k : String) (v : Option ℚ) : ScoresMap :=
  fun k' => if k' = k then some v else m k'

/-- JS `scores[k]++`: increments a numeric entry; an absent or `NaN` entry
becomes `NaN` (undefined + 1 is NaN). -/
def scoresIncr (m : ScoresMap) (k : String) : ScoresMap :=
  match m k with
  | some (some v) => scoresSet m k (some (v + 1))
  | _ => scoresSet m k none

/-- The per-lobby `gameState` object. -/
structure GameState where
  status : GStatus
  ball : Ball
  paddles : List Paddle
  scores : ScoresMap

/-- A lobby entry of the global `lobbies` map. -/
structure Lobby where
  code : String
  host : String
  players : List Player
  gameState : GameState
  gameLoopInterval : Option Nat

/-- The whole server: the `lobbies` map plus the set of live `setInterval`
timers.  `activeTimers` records each timer handle together with the lobby
code its callback closes over; `nextTimer` generates fresh handles.  A pair
that stays in `activeTimers` after its lobby is gone is an orphaned timer
that keeps firing. -/
structure ServerState where
  lobbies : String → Option Lobby
  activeTimers : List (Nat × String)
  nextTimer : Nat

/-- JS `lobbies.set(code, l)`. -/
def lobbiesSet (s : ServerState) (code : String) (l : Lobby) : ServerState :=
  { s with lobbies := fun c => if c = code then some l else s.lobbies c }

/-- JS `lobbies.delete(code)`. -/
def lobbiesDelete (s : ServerState) (code : String) : ServerState :=
  { s with lobbies := fun c => if c = code then none else s.lobbies c }

/-- JS `clearInterval(t)`. -/
def clearTimer (s : ServerState) (t : Nat) : ServerState :=
  { s with activeTimers := s.activeTimers.filter (fun p => ¬ p.1 = t) }

/-- Outbound messages pushed to a lobby's clients. -/
inductive Msg where
  | PLAYER_JOINED (playerName : String)
  | PLAYER_LEFT (playerName : String)
  | GAME_START
  | GAME_OVER (winner : String)
  | GAME_STATE_UPDATE (gs : GameState)

/-- `broadcastToLobby`: emits the message iff the lobby still exists
(stale codes fall through silently). -/
def broadcastToLobby (s : ServerState) (code : String) (m : Msg) : List Msg :=
  match s.lobbies code with
  | some _ => [m]
  | none => []

/-- `updateGameState`: broadcast a full `GAME_STATE_UPDATE` snapshot. -/
def updateGameState (s : ServerState) (code : String) : List Msg :=
  match s.lobbies code with
  | some lobby => broadcastToLobby s code (Msg.GAME_STATE_UPDATE lobby.gameState)
  | none => []

/-- Result of the join endpoint. -/
inductive JoinResult where
  | ok (playerId : String)
  | invalidInput
  | notFound
  | full
deriving DecidableEq, Repr

/-- `POST /api/lobby/create`.  The generated lobby code and host id are
passed in (the JS draws them from `Math.random`/`uuidv4`; the do/while
retry loop guarantees the code is fresh, which callers record as a
hypothesis).  Returns the new state and the `{lobbyCode, hostId}` response
(`none` models the 400 error on an empty host name). -/
def createLobby (s : ServerState) (hostName lobbyCode hostId : String) :
    ServerState × Option (String × String) :=
  if hostName = "" then (s, none)
  else
    (lobbiesSet s lobbyCode
      { code := lobbyCode
        host := hostId
        players := [{ id := hostId, name := hostName, isReady := false, position := Pos.TOP }]
        gameState :=
          { status := GStatus.WAITING
            ball := { x := 300, y := 300, velocityX := 0, velocityY := 0 }
            paddles := []
            scores := fun _ => none }
        gameLoopInterval := none },
     some (lobbyCode, hostId))

/-- The side-assignment array `['TOP', 'RIGHT', 'BOTTOM', 'LEFT']`. -/
def positionsList : List Pos := [Pos.TOP, Pos.RIGHT, Pos.BOTTOM, Pos.LEFT]

/-- `POST /api/lobby/join`.  The fresh player id is passed in.  Returns the
new state, the outcome, and the broadcasts emitted. -/
def joinLobby (s : ServerState) (lobbyCode playerName playerId : String) :
    ServerState × JoinResult × List Msg :=
  if lobbyCode = "" ∨ playerName = "" then (s, JoinResult.invalidInput, [])
  else
    match s.lobbies lobbyCode with
    | none => (s, JoinResult.notFound, [])
    | some lobby =>
      if 4 ≤ lobby.players.length then (s, JoinResult.full, [])
      else
        let position := positionsList.getD lobby.players.length Pos.TOP
        let lobby' :=
          { lobby with
            players := lobby.players ++
              [{ id := playerId, name := playerName, isReady := false, position := position }]
            gameState :=
              { lobby.gameState with
                scores := scoresSet lobby.gameState.scores playerId (some 0) } }
        let s' := lobbiesSet s lobbyCode lobby'
        (s', JoinResult.ok playerId,
          broadcastToLobby s' lobbyCode (Msg.PLAYER_JOINED playerName))

/-- The paddle `startGame` builds for a player, per the fixed layout table. -/
def paddleFor (player : Player) : Paddle :=
  match player.position with
  | Pos.TOP =>
    { playerId := player.id, position := player.position, x := 250, y := 20, width := 100, height := 10 }
  | Pos.RIGHT =>
    { playerId := player.id, position := player.position, x := 570, y := 250, width := 10, height := 100 }
  | Pos.BOTTOM =>
    { playerId := player.id, position := player.position, x := 250, y := 570, width := 100, height := 10 }
  | Pos.LEFT =>
    { playerId := player.id, position := player.position, x := 20, y := 250, width := 10, height := 100 }

/-- `startGameLoop`: clears any existing interval handle, then registers a
fresh repeating timer whose callback closes over the lobby code. -/
def startGameLoop (s : ServerState) (code : String) : ServerState :=
  match s.lobbies code with
  | none => s
  | some lobby =>
    let s1 :=
      match lobby.gameLoopInterval with
      | some t => clearTimer s t
      | none => s
    let t' := s1.nextTimer
    let s2 := lobbiesSet s1 code { lobby with gameLoopInterval := some t' }
    { s2 with
      activeTimers := s2.activeTimers ++ [(t', code)]
      nextTimer := t' + 1 }

/-- `startGame`: builds paddles from the current players, recenters the
ball with ±3/±3 velocity (`rvx`, `rvy` are the two `Math.random() > 0.5`
draws), zeroes every current player's score, sets status PLAYING,
broadcasts `GAME_START` and starts the tick loop. -/
def startGame (s : ServerState) (code : String) (rvx rvy : Bool) :
    ServerState × List Msg :=
  match s.lobbies code with
  | none => (s, [])
  | some lobby =>
    let paddles := lobby.players.map paddleFor
    let ball : Ball :=
      { x := 300, y := 300
        velocityX := if rvx then 3 else -3
        velocityY := if rvy then 3 else -3 }
    let scores :=
      lobby.players.foldl (fun sc p => scoresSet sc p.id (some 0)) lobby.gameState.scores
    let lobby' :=
      { lobby with
        gameState :=
          { status := GStatus.PLAYING, ball := ball, paddles := paddles, scores := scores } }
    let s1 := lobbiesSet s code lobby'
    let msgs := broadcastToLobby s1 code Msg.GAME_START
    (startGameLoop s1 code, msgs)

/-- `endGame`: stop and null the tick loop, set GAME_OVER, resolve the
winner name (falling back to "Unknown"), broadcast `GAME_OVER`, reset every
player's readiness and broadcast the updated state. -/
def endGame (s : ServerState) (code : String) (winnerId : Option String) :
    ServerState × List Msg :=
  match s.lobbies code with
  | none => (s, [])
  | some lobby =>
    let cleared :=
      match lobby.gameLoopInterval with
      | some t => (clearTimer s t, { lobby with gameLoopInterval := none })
      | none => (s, lobby)
    let lobby1 : Lobby :=
      { cleared.2 with gameState := { cleared.2.gameState with status := GStatus.GAME_OVER } }
    let winnerName :=
      match winnerId with
      | some wid =>
        match lobby1.players.find? (fun p => p.id = wid) with
        | some w => w.name
        | none => "Unknown"
      | none => "Unknown"
    let s2 := lobbiesSet cleared.1 code lobby1
    let m1 := broadcastToLobby s2 code (Msg.GAME_OVER winnerName)
    let lobby2 := { lobby1 with players := lobby1.players.map (fun p => { p with isReady := false }) }
    let s3 := lobbiesSet s2 code lobby2
    (s3, m1 ++ updateGameState s3 code)

/-- The in-place readiness update of `handlePlayerReady`: JS `find` returns
the first matching player object and sets its `isReady`; an absent id
leaves the array untouched. -/
def setReadyFirst : List Player → String → List Player
  | [], _ => []
  | p :: ps, pid =>
    if p.id = pid then { p with isReady := true } :: ps
    else p :: setReadyFirst ps pid

/-- `handlePlayerReady`: mark the sender ready, then start the game iff all
current players are ready and there are at least two of them; otherwise
broadcast the updated state.  (The JS performs no status check here.) -/
def handlePlayerReady (s : ServerState) (code pid : String) (rvx rvy : Bool) :
    ServerState × List Msg :=
  match s.lobbies code with
  | none => (s, [])
  | some lobby =>
    let players' := setReadyFirst lobby.players pid
    let lobby' := { lobby with players := players' }
    let s1 := lobbiesSet s code lobby'
    if players'.all (fun p => p.isReady) ∧ 2 ≤ players'.length then
      startGame s1 code rvx rvy
    else
      (s1, updateGameState s1 code)

/-- One paddle-movement step (`PADDLE_SPEED = 10`), guarded so the paddle
stays inside the 600-unit bound on its movable axis. -/
def movePaddle (paddle : Paddle) (d : Direction) : Paddle :=
  match paddle.position with
  | Pos.TOP | Pos.BOTTOM =>
    if d = Direction.LEFT ∧ 0 < paddle.x then { paddle with x := paddle.x - 10 }
    else if d = Direction.RIGHT ∧ paddle.x + paddle.width < 600 then
      { paddle with x := paddle.x + 10 }
    else paddle
  | _ =>
    if d = Direction.UP ∧ 0 < paddle.y then { paddle with y := paddle.y - 10 }
    else if d = Direction.DOWN ∧ paddle.y + paddle.height < 600 then
      { paddle with y := paddle.y + 10 }
    else paddle

/-- The in-place update of the first paddle whose `playerId` matches
(JS `paddles.find` aliasing). -/
def movePaddleFirst : List Paddle → String → Direction → List Paddle
  | [], _, _ => []
  | p :: ps, pid, d =>
    if p.playerId = pid then movePaddle p d :: ps
    else p :: movePaddleFirst ps pid d

/-- `handleMovePaddle`: no-op unless the lobby exists, is PLAYING and the
player has a paddle; otherwise move the paddle and broadcast. -/
def handleMovePaddle (s : ServerState) (code pid : String) (d : Direction) :
    ServerState × List Msg :=
  match s.lobbies code with
  | none => (s, [])
  | some lobby =>
    if lobby.gameState.status = GStatus.PLAYING then
      match lobby.gameState.paddles.find? (fun p => p.playerId = pid) with
      | none => (s, [])
      | some _ =>
        let lobby' :=
          { lobby with
            gameState :=
              { lobby.gameState with
                paddles := movePaddleFirst lobby.gameState.paddles pid d } }
        let s1 := lobbiesSet s code lobby'
        (s1, updateGameState s1 code)
    else (s, [])

/-- The removal of the first player with a given id (`findIndex` +
`splice(index, 1)`). -/
def removeFirstPlayer : List Player → String → List Player
  | [], _ => []
  | p :: ps, pid => if p.id = pid then ps else p :: removeFirstPlayer ps pid

/-- The tail of `handlePlayerLeave` after the player list and host have
been written back: broadcast `PLAYER_LEFT`, then end the game if it was in
progress, else broadcast the updated state. -/
def afterLeave (s : ServerState) (code : String) (lobby : Lobby) (playerName : String) :
    ServerState × List Msg :=
  let m1 := broadcastToLobby s code (Msg.PLAYER_LEFT playerName)
  if lobby.gameState.status = GStatus.PLAYING then
    let r := endGame s code none
    (r.1, m1 ++ r.2)
  else (s, m1 ++ updateGameState s code)

/-- `handlePlayerLeave`: remove the player; if the host left, promote the
first remaining player or — when nobody remains — delete the lobby and
return at once (note: without clearing any interval). -/
def handlePlayerLeave (s : ServerState) (code pid : String) :
    ServerState × List Msg :=
  match s.lobbies code with
  | none => (s, [])
  | some lobby =>
    match lobby.players.find? (fun p => p.id = pid) with
    | none => (s, [])
    | some leaver =>
      let players1 := removeFirstPlayer lobby.players pid
      if lobby.host = pid then
        match players1 with
        | [] => (lobbiesDelete s code, [])
        | q :: rest =>
          let lobby2 := { lobby with players := q :: rest, host := q.id }
          afterLeave (lobbiesSet s code lobby2) code lobby2 leaver.name
      else
        let lobby1 := { lobby with players := players1 }
        afterLeave (lobbiesSet s code lobby1) code lobby1 leaver.name

/-- `checkCollision`: strict AABB overlap between the 10×10 ball square and
a paddle rectangle. -/
def checkCollision (ball : Ball) (paddle : Paddle) : Bool :=
  decide (ball.x < paddle.x + paddle.width) &&
  decide (paddle.x < ball.x + 10) &&
  decide (ball.y < paddle.y + paddle.height) &&
  decide (paddle.y < ball.y + 10)

/-- `resetBall`: recenter with ±3/±3 velocity (`r1`, `r2` are the two
`Math.random() > 0.5` draws). -/
def resetBall (r1 r2 : Bool) : Ball :=
  { x := 300, y := 300
    velocityX := if r1 then 3 else -3
    velocityY := if r2 then 3 else -3 }

/-- Round a rational to the nearest integer, ties to even — the rounding
IEEE 754 applies to a scaled significand. -/
def rne (q : ℚ) : ℤ :=
  if q - ⌊q⌋ < 1 / 2 then ⌊q⌋
  else if 1 / 2 < q - ⌊q⌋ then ⌊q⌋ + 1
  else if 2 ∣ ⌊q⌋ then ⌊q⌋ else ⌊q⌋ + 1

/-- The IEEE 754 binary64 (JavaScript number) value nearest a nonzero
rational in the normal range: the 53-bit significand is rounded to
nearest, ties to even.  Overflow and subnormals — which the quantities of
this game never reach — are not modelled. -/
def roundB64 (q : ℚ) : ℚ :=
  if q = 0 then 0
  else (rne (q * 2 ^ (52 - Int.log 2 |q|)) : ℚ) * 2 ^ (Int.log 2 |q| - 52)

/-- Binary64 multiplication as JavaScript performs it: the exact product
of two doubles, rounded back to a double. -/
def mulB64 (a b : ℚ) : ℚ := roundB64 (a * b)

/-- The binary64 value the source literal `1.05` parses to (the nearest
double to 21/20, slightly above it). -/
def lit105 : ℚ := roundB64 1.05

/-- The paddle-collision loop of `updateBallPosition`: the first colliding
paddle (in list order) inverts the velocity component perpendicular to its
side and both components are scaled by 1.05; then the loop breaks.  The
`*= 1.05` is binary64 arithmetic: the stored literal `1.05` and the
product are both rounded doubles. -/
def applyCollision (ball : Ball) : List Paddle → Ball
  | [] => ball
  | paddle :: rest =>
    if checkCollision ball paddle then
      let b1 :=
        match paddle.position with
        | Pos.TOP | Pos.BOTTOM => { ball with velocityY := -ball.velocityY }
        | _ => { ball with velocityX := -ball.velocityX }
      { b1 with velocityX := mulB64 b1.velocityX lit105, velocityY := mulB64 b1.velocityY lit105 }
    else applyCollision ball rest

/-- One wall-scoring branch: find the guard of the given side, increment
their score if present, and reset the ball either way. -/
def scoreAt (players : List Player) (pos : Pos) (scores : ScoresMap) (r1 r2 : Bool) :
    ScoresMap × Option String × Ball :=
  match players.find? (fun p => p.position = pos) with
  | some pl => (scoresIncr scores pl.id, some pl.id, resetBall r1 r2)
  | none => (scores, none, resetBall r1 r2)

/-- The wall if/else chain of `updateBallPosition`, in source order:
y < 0 scores BOTTOM, x > 600 scores LEFT, y > 600 scores TOP, x < 0 scores
RIGHT; otherwise the ball flies on. -/
def boundaryStep (players : List Player) (scores : ScoresMap) (b : Ball) (r1 r2 : Bool) :
    ScoresMap × Option String × Ball :=
  if b.y < 0 then scoreAt players Pos.BOTTOM scores r1 r2
  else if 600 < b.x then scoreAt players Pos.LEFT scores r1 r2
  else if 600 < b.y then scoreAt players Pos.TOP scores r1 r2
  else if b.x < 0 then scoreAt players Pos.RIGHT scores r1 r2
  else (scores, none, b)

/-- JS `lobby.gameState.scores[scorer] >= 10` (false for a missing or `NaN`
entry). -/
def scoreGE10 : Option (Option ℚ) → Bool
  | some (some v) => decide (10 ≤ v)
  | _ => false

/-- The position advance `ball.x += ball.velocityX; ball.y += ball.velocityY`. -/
def movedBall (b : Ball) : Ball :=
  { b with x := b.x + b.velocityX, y := b.y + b.velocityY }

/-- `updateBallPosition`: when PLAYING, advance the ball by its velocity,
run the collision loop, run the wall chain, and if the scorer reached 10
points end the game with them as winner. -/
def updateBallPosition (s : ServerState) (code : String) (r1 r2 : Bool) :
    ServerState × List Msg :=
  match s.lobbies code with
  | none => (s, [])
  | some lobby =>
    if lobby.gameState.status = GStatus.PLAYING then
      let b1 := applyCollision (movedBall lobby.gameState.ball) lobby.gameState.paddles
      let step := boundaryStep lobby.players lobby.gameState.scores b1 r1 r2
      let lobby' :=
        { lobby with
          gameState := { lobby.gameState with ball := step.2.2, scores := step.1 } }
      let s1 := lobbiesSet s code lobby'
      match step.2.1 with
      | some sid =>
        if scoreGE10 (step.1 sid) then endGame s1 code (some sid) else (s1, [])
      | none => (s1, [])
    else (s, [])

/-- One firing of the `setInterval` callback registered by
`startGameLoop`: `updateBallPosition` then `updateGameState`. -/
def tick (s : ServerState) (code : String) (r1 r2 : Bool) : ServerState × List Msg :=
  let r := updateBallPosition s code r1 r2
  (r.1, r.2 ++ updateGameState r.1 code)

/-- The server before any request: empty registry, no timers. -/
def initialState : ServerState :=
  { lobbies := fun _ => none, activeTimers := [], nextTimer := 0 }

/-- One serialized event-loop turn: an admission request, an inbound
channel message, or one firing of a lobby's tick timer.  Fresh-identifier
side conditions record what the JS generators guarantee (the create
do/while retries until the code is unused). -/
inductive Step : ServerState → ServerState → Prop where
  | create (s : ServerState) (hostName code hostId : String)
      (hfresh : s.lobbies code = none) :
      Step s (createLobby s hostName code hostId).1
  | join (s : ServerState) (code name pid : String) :
      Step s (joinLobby s code name pid).1
  | ready (s : ServerState) (code pid : String) (rvx rvy : Bool) :
      Step s (handlePlayerReady s code pid rvx rvy).1
  | move (s : ServerState) (code pid : String) (d : Direction) :
      Step s (handleMovePaddle s code pid d).1
  | leave (s : ServerState) (code pid : String) :
      Step s (handlePlayerLeave s code pid).1
  | tickFire (s : ServerState) (t : Nat) (code : String) (r1 r2 : Bool)
      (hmem : (t, code) ∈ s.activeTimers) :
      Step s (tick s code r1 r2).1

/-- States reachable from server start by serialized event-loop turns. -/
inductive Reachable : ServerState → Prop where
  | init : Reachable initialState
  | step {s s' : ServerState} : Reachable s → Step s s' → Reachable s'

/-- Per-lobby tick-loop invariant: a PLAYING lobby has at least two
players, and a lobby that is not PLAYING holds no interval handle. -/
def lobbyInv (l : Lobby) : Prop :=
  (l.gameState.status = GStatus.PLAYING → 2 ≤ l.players.length) ∧
  (l.gameState.status ≠ GStatus.PLAYING → l.gameLoopInterval = none)

/-- Server-wide tick-loop invariant: every lobby satisfies `lobbyInv` and
every live timer belongs to an existing PLAYING lobby whose recorded handle
it is — no timer outlives its lobby or its game. -/
def Inv (s : ServerState) : Prop :=
  (∀ c l, s.lobbies c = some l → lobbyInv l) ∧
  (∀ t c, (t, c) ∈ s.activeTimers →
    ∃ l, s.lobbies c = some l ∧ l.gameLoopInterval = some t ∧
      l.gameState.status = GStatus.PLAYING)

/-! ### Concrete fixtures used by the witnesses -/

def playerA : Player := { id := "A", name := "Alice", isReady := true, position := Pos.TOP }

def playerB : Player := { id := "B", name := "Bob", isReady := true, position := Pos.RIGHT }

def playerBu : Player := { id := "B", name := "Bob", isReady := false, position := Pos.RIGHT }

def playerC : Player := { id := "C", name := "Cara", isReady := true, position := Pos.BOTTOM }

def scoresAB : ScoresMap :=
  fun k => if k = "A" then some (some 0) else if k = "B" then some (some 0) else none

def scoresAC : ScoresMap :=
  fun k => if k = "A" then some (some 0) else if k = "C" then some (some 9) else none

/-- A mid-rally PLAYING lobby: the ball is about to hit the TOP paddle. -/
def lobbyPlaying : Lobby :=
  { code := "GAME", host := "A", players := [playerA, playerB]
    gameState :=
      { status := GStatus.PLAYING
        ball := { x := 300, y := 22, velocityX := 3, velocityY := 3 }
        paddles := [paddleFor playerA, paddleFor playerB]
        scores := scoresAB }
    gameLoopInterval := some 0 }

def statePlaying : ServerState :=
  { lobbies := fun c => if c = "GAME" then some lobbyPlaying else none
    activeTimers := [(0, "GAME")], nextTimer := 1 }

/-- A PLAYING lobby whose ball is about to cross the top wall while the
BOTTOM guard sits at nine points. -/
def lobbyScoring : Lobby :=
  { code := "SCOR", host := "A", players := [playerA, playerC]
    gameState :=
      { status := GStatus.PLAYING
        ball := { x := 300, y := 2, velocityX := 3, velocityY := -3 }
        paddles := []
        scores := scoresAC }
    gameLoopInterval := some 1 }

def stateScoring : ServerState :=
  { lobbies := fun c => if c = "SCOR" then some lobbyScoring else none
    activeTimers := [(1, "SCOR")], nextTimer := 2 }

/-- A WAITING two-player lobby with only Alice ready. -/
def lobbyWaiting : Lobby :=
  { code := "WAIT", host := "A", players := [playerA, playerBu]
    gameState :=
      { status := GStatus.WAITING
        ball := { x := 300, y := 300, velocityX := 0, velocityY := 0 }
        paddles := []
        scores := scoresAB }
    gameLoopInterval := none }

def stateWaiting : ServerState :=
  { lobbies := fun c => if c = "WAIT" then some lobbyWaiting else none
    activeTimers := [], nextTimer := 0 }

/-- A finished (GAME_OVER) two-player lobby with only Alice re-readied. -/
def lobbyOver : Lobby :=
  { code := "OVER", host := "A", players := [playerA, playerBu]
    gameState :=
      { status := GStatus.GAME_OVER
        ball := { x := 300, y := 300, velocityX := 3, velocityY := 3 }
        paddles := [paddleFor playerA, paddleFor playerBu]
        scores := scoresAB }
    gameLoopInterval := none }

def stateOver : ServerState :=
  { lobbies := fun c => if c = "OVER" then some lobbyOver else none
    activeTimers := [], nextTimer := 3 }

/-- A WAITING one-player lobby (Alice alone and ready). -/
def lobbySolo : Lobby :=
  { code := "SOLO", host := "A", players := [playerA]
    gameState :=
      { status := GStatus.WAITING
        ball := { x := 300, y := 300, velocityX := 0, velocityY := 0 }
        paddles := []
        scores := fun k => if k = "A" then some (some 0) else none }
    gameLoopInterval := none }

def stateSolo : ServerState :=
  { lobbies := fun c => if c = "SOLO" then some lobbySolo else none
    activeTimers := [], nextTimer := 0 }

/-! ## Basic lemmas about the state maps -/

@[simp] theorem lobbiesSet_self (s : ServerState) (code : String) (l : Lobby) :
    (lobbiesSet s code l).lobbies code = some l := by
  simp [lobbiesSet]

theorem lobbiesSet_ne (s : ServerState) (code : String) (l : Lobby)
    {c : String} (h : c ≠ code) : (lobbiesSet s code l).lobbies c = s.lobbies c := by
  simp [lobbiesSet, h]

@[simp] theorem lobbiesSet_activeTimers (s : ServerState) (code : String) (l : Lobby) :
    (lobbiesSet s code l).activeTimers = s.activeTimers := rfl

@[simp] theorem lobbiesSet_nextTimer (s : ServerState) (code : String) (l : Lobby) :
    (lobbiesSet s code l).nextTimer = s.nextTimer := rfl

@[simp] theorem clearTimer_lobbies (s : ServerState) (t : Nat) :
    (clearTimer s t).lobbies = s.lobbies := rfl

@[simp] theorem clearTimer_nextTimer (s : ServerState) (t : Nat) :
    (clearTimer s t).nextTimer = s.nextTimer := rfl

@[simp] theorem lobbiesDelete_activeTimers (s : ServerState) (code : String) :
    (lobbiesDelete s code).activeTimers = s.activeTimers := rfl

theorem lobbiesGet_lobbiesSet (s : ServerState) (code : String) (l : Lobby) (c : String) :
    (lobbiesSet s code l).lobbies c = if c = code then some l else s.lobbies c := rfl

/-- Overwriting a lobby entry with the value it already has is a no-op. -/
theorem lobbiesSet_eq_self {s : ServerState} {code : String} {l : Lobby}
    (h : s.lobbies code = some l) : lobbiesSet s code l = s := by
  cases s with
  | mk lobbies timers next =>
    simp only [lobbiesSet, ServerState.mk.injEq, and_true, true_and]
    funext c
    by_cases hc : c = code
    · subst hc; simpa using h.symm
    · simp [hc]

@[simp] theorem scoresSet_self (m : ScoresMap) (k : String) (v : Option ℚ) :
    scoresSet m k v k = some v := by
  simp [scoresSet]

theorem scoresSet_ne (m : ScoresMap) (k : String) (v : Option ℚ)
    {k' : String} (h : k' ≠ k) : scoresSet m k v k' = m k' := by
  simp [scoresSet, h]

theorem scoresIncr_ne (m : ScoresMap) (k : String) {k' : String} (h : k' ≠ k) :
    scoresIncr m k k' = m k' := by
  unfold scoresIncr
  match m k with
  | some (some v) => exact scoresSet_ne _ _ _ h
  | some none => exact scoresSet_ne _ _ _ h
  | none => exact scoresSet_ne _ _ _ h

theorem scoresIncr_self {m : ScoresMap} {k : String} {v : ℚ}
    (h : m k = some (some v)) : scoresIncr m k k = some (some (v + 1)) := by
  unfold scoresIncr
  rw [h]
  simp

/-- Incrementing never deletes an entry and never decreases a numeric one. -/
theorem scoresIncr_mono {m : ScoresMap} {k k' : String} {v : ℚ}
    (h : m k' = some (some v)) :
    ∃ v', scoresIncr m k k' = some (some v') ∧ v ≤ v' := by
  by_cases hk : k' = k
  · subst hk
    exact ⟨v + 1, scoresIncr_self h, by linarith⟩
  · exact ⟨v, by rw [scoresIncr_ne m k hk, h], le_refl v⟩

/-! ## Characterizations of the game-lifecycle procedures -/

/-- What `endGame` does to a lobby it finds: stops and nulls the tick loop,
sets GAME_OVER, resets readiness, and touches nothing else. -/
theorem endGame_spec (s : ServerState) (code : String) (winnerId : Option String)
    (l : Lobby) (h : s.lobbies code = some l) :
    ∃ lfin,
      (endGame s code winnerId).1.lobbies code = some lfin ∧
      lfin.gameState.status = GStatus.GAME_OVER ∧
      lfin.gameLoopInterval = none ∧
      lfin.players = l.players.map (fun p => { p with isReady := false }) ∧
      lfin.host = l.host ∧
      lfin.gameState.ball = l.gameState.ball ∧
      lfin.gameState.scores = l.gameState.scores ∧
      lfin.gameState.paddles = l.gameState.paddles ∧
      (∀ c, c ≠ code → (endGame s code winnerId).1.lobbies c = s.lobbies c) ∧
      (endGame s code winnerId).1.activeTimers =
        (match l.gameLoopInterval with
         | some t => s.activeTimers.filter (fun p => ¬ p.1 = t)
         | none => s.activeTimers) ∧
      (endGame s code winnerId).1.nextTimer = s.nextTimer := by
  unfold endGame
  rw [h]
  cases hint : l.gameLoopInterval with
  | none =>
    simp only [hint]
    refine ⟨_, lobbiesSet_self _ _ _, by simp, by simp, by simp, by simp, by simp, by simp, by simp, ?_, ?_, ?_⟩
    · intro c hc
      rw [lobbiesSet_ne _ _ _ hc, lobbiesSet_ne _ _ _ hc]
    · simp
    · simp
  | some t =>
    simp only [hint]
    refine ⟨_, lobbiesSet_self _ _ _, by simp, by simp, by simp, by simp, by simp, by simp, by simp, ?_, ?_, ?_⟩
    · intro c hc
      rw [lobbiesSet_ne _ _ _ hc, lobbiesSet_ne _ _ _ hc]
      rfl
    · simp [clearTimer]
    · simp

/-- What `startGame` does to a lobby it finds: fresh paddles from the
current players, a recentered ±3/±3 ball, zeroed scores, status PLAYING, a
`GAME_START` broadcast and a freshly registered tick timer (clearing any
prior handle first). -/
theorem startGame_spec (s : ServerState) (code : String) (rvx rvy : Bool)
    (l : Lobby) (h : s.lobbies code = some l) :
    ∃ lfin,
      (startGame s code rvx rvy).1.lobbies code = some lfin ∧
      lfin.gameState.status = GStatus.PLAYING ∧
      lfin.players = l.players ∧
      lfin.host = l.host ∧
      lfin.gameState.paddles = l.players.map paddleFor ∧
      lfin.gameState.ball =
        { x := 300, y := 300
          velocityX := if rvx then 3 else -3
          velocityY := if rvy then 3 else -3 } ∧
      lfin.gameState.scores =
        l.players.foldl (fun sc p => scoresSet sc p.id (some 0)) l.gameState.scores ∧
      lfin.gameLoopInterval = some s.nextTimer ∧
      (∀ c, c ≠ code → (startGame s code rvx rvy).1.lobbies c = s.lobbies c) ∧
      (startGame s code rvx rvy).1.activeTimers =
        (match l.gameLoopInterval with
         | some t => s.activeTimers.filter (fun p => ¬ p.1 = t)
         | none => s.activeTimers) ++ [(s.nextTimer, code)] ∧
      (startGame s code rvx rvy).1.nextTimer = s.nextTimer + 1 ∧
      (startGame s code rvx rvy).2 = [Msg.GAME_START] := by
  unfold startGame startGameLoop
  rw [h]
  simp only [lobbiesSet_self]
  cases hint : l.gameLoopInterval with
  | none =>
    simp only [hint]
    refine ⟨_, rfl, by simp, by simp, by simp, by simp, by simp, by simp, by simp, ?_, ?_, ?_, ?_⟩
    · intro c hc
      simp only [lobbiesSet]
      simp [hc]
    · simp
    · simp
    · simp [broadcastToLobby]
  | some t =>
    simp only [hint]
    refine ⟨_, rfl, by simp, by simp, by simp, by simp, by simp, by simp, by simp, ?_, ?_, ?_, ?_⟩
    · intro c hc
      simp only [lobbiesSet, clearTimer]
      simp [hc]
    · simp [clearTimer, lobbiesSet]
    · simp [clearTimer, lobbiesSet]
    · simp [broadcastToLobby]

/-- `updateBallPosition` on a lobby that is not PLAYING changes nothing and
emits nothing. -/
theorem updateBallPosition_not_playing (s : ServerState) (code : String) (r1 r2 : Bool)
    (l : Lobby) (h : s.lobbies code = some l)
    (hst : l.gameState.status ≠ GStatus.PLAYING) :
    updateBallPosition s code r1 r2 = (s, []) := by
  unfold updateBallPosition
  rw [h]
  simp [hst]

/-- `handleMovePaddle` on a lobby that is not PLAYING changes nothing and
emits nothing. -/
theorem handleMovePaddle_not_playing (s : ServerState) (code pid : String) (d : Direction)
    (l : Lobby) (h : s.lobbies code = some l)
    (hst : l.gameState.status ≠ GStatus.PLAYING) :
    handleMovePaddle s code pid d = (s, []) := by
  unfold handleMovePaddle
  rw [h]
  simp [hst]

/-! ## Score-entry preservation -/

theorem scoresSet_isSome (m : ScoresMap) (k : String) (v : Option ℚ) (k' : String)
    (h : (m k').isSome) : (scoresSet m k v k').isSome := by
  unfold scoresSet
  split <;> simp_all

theorem scoresIncr_isSome (m : ScoresMap) (k k' : String)
    (h : (m k').isSome) : (scoresIncr m k k').isSome := by
  unfold scoresIncr
  cases hm : m k with
  | none => exact scoresSet_isSome _ _ _ _ h
  | some o =>
    cases o with
    | none => exact scoresSet_isSome _ _ _ _ h
    | some v => exact scoresSet_isSome _ _ _ _ h

/-- The score-zeroing fold of `startGame` never deletes an entry. -/
theorem foldlZero_isSome (ps : List Player) (m : ScoresMap) (k : String)
    (h : (m k).isSome) :
    ((ps.foldl (fun sc p => scoresSet sc p.id (some 0)) m) k).isSome := by
  induction ps generalizing m with
  | nil => exact h
  | cons p rest ih => exact ih _ (scoresSet_isSome _ _ _ _ h)

theorem foldlZero_not_mem (ps : List Player) (m : ScoresMap) (k : String)
    (h : ∀ p ∈ ps, p.id ≠ k) :
    (ps.foldl (fun sc p => scoresSet sc p.id (some 0)) m) k = m k := by
  induction ps generalizing m with
  | nil => rfl
  | cons p rest ih =>
    rw [List.foldl_cons, ih _ (fun q hq => h q (List.mem_cons_of_mem _ hq)),
      scoresSet_ne _ _ _ (fun hk => h p (List.mem_cons_self _ _) hk.symm)]

/-- After the score-zeroing fold of `startGame`, every current player's
entry is `0`. -/
theorem foldlZero_mem (ps : List Player) (m : ScoresMap) (k : String)
    (h : ∃ p ∈ ps, p.id = k) :
    (ps.foldl (fun sc p => scoresSet sc p.id (some 0)) m) k = some (some 0) := by
  induction ps generalizing m with
  | nil => obtain ⟨p, hp, _⟩ := h; cases hp
  | cons p rest ih =>
    by_cases hrest : ∃ q ∈ rest, q.id = k
    · exact ih _ hrest
    · obtain ⟨q, hq, hqk⟩ := h
      rcases List.mem_cons.mp hq with rfl | hmem
      · rw [List.foldl_cons,
          foldlZero_not_mem rest _ k (fun r hr hrk => hrest ⟨r, hr, hrk⟩)]
        rw [← hqk, scoresSet_self]
      · exact absurd ⟨q, hmem, hqk⟩ hrest

/-- A score entry present in a lobby survives `startGame` (zeroing
overwrites entries but removes none). -/
theorem startGame_keeps_scores (s : ServerState) (code : String) (rvx rvy : Bool)
    (l l' : Lobby) (k : String)
    (h : s.lobbies code = some l)
    (h' : (startGame s code rvx rvy).1.lobbies code = some l')
    (hk : (l.gameState.scores k).isSome) : (l'.gameState.scores k).isSome := by
  obtain ⟨lfin, hlook, -, -, -, -, -, hscores, -, -, -, -, -⟩ :=
    startGame_spec s code rvx rvy l h
  rw [hlook] at h'
  cases h'
  rw [hscores]
  exact foldlZero_isSome _ _ _ hk

/-- `endGame` never touches scores. -/
theorem endGame_keeps_scores (s : ServerState) (code : String) (winnerId : Option String)
    (l l' : Lobby) (k : String)
    (h : s.lobbies code = some l)
    (h' : (endGame s code winnerId).1.lobbies code = some l')
    (hk : (l.gameState.scores k).isSome) : (l'.gameState.scores k).isSome := by
  obtain ⟨lfin, hlook, -, -, -, -, -, hscores, -, -, -, -⟩ :=
    endGame_spec s code winnerId l h
  rw [hlook] at h'
  cases h'
  rw [hscores]
  exact hk

/-- A score entry present in a lobby survives `handlePlayerReady` (flag
updates leave scores alone; a game start overwrites entries with zeroes but
removes none). -/
theorem ready_keeps_scores (s : ServerState) (code pid : String) (rvx rvy : Bool)
    (l l' : Lobby) (k : String)
    (h : s.lobbies code = some l)
    (h' : (handlePlayerReady s code pid rvx rvy).1.lobbies code = some l')
    (hk : (l.gameState.scores k).isSome) : (l'.gameState.scores k).isSome := by
  simp only [handlePlayerReady, h] at h'
  split at h'
  · exact startGame_keeps_scores _ _ _ _ _ _ _ (lobbiesSet_self _ _ _) h' hk
  · rw [lobbiesSet_self] at h'
    cases h'
    exact hk

/-- A score entry present in a lobby survives `handleMovePaddle`. -/
theorem move_keeps_scores (s : ServerState) (code pid : String) (d : Direction)
    (l l' : Lobby) (k : String)
    (h : s.lobbies code = some l)
    (h' : (handleMovePaddle s code pid d).1.lobbies code = some l')
    (hk : (l.gameState.scores k).isSome) : (l'.gameState.scores k).isSome := by
  simp only [handleMovePaddle, h] at h'
  split at h'
  · split at h'
    · rw [h] at h'; cases h'; exact hk
    · rw [lobbiesSet_self] at h'
      cases h'
      exact hk
  · rw [h] at h'; cases h'; exact hk

/-- A score entry survives `handlePlayerLeave` whenever the lobby itself
survives. -/
theorem leave_keeps_scores (s : ServerState) (code pid : String)
    (l l' : Lobby) (k : String)
    (h : s.lobbies code = some l)
    (h' : (handlePlayerLeave s code pid).1.lobbies code = some l')
    (hk : (l.gameState.scores k).isSome) : (l'.gameState.scores k).isSome := by
  simp only [handlePlayerLeave, h] at h'
  split at h'
  · rw [h] at h'; cases h'; exact hk
  · split at h'
    · split at h'
      · simp [lobbiesDelete] at h'
      · simp only [afterLeave] at h'
        split at h'
        · exact endGame_keeps_scores _ _ _ _ _ _ (lobbiesSet_self _ _ _) h' hk
        · rw [lobbiesSet_self] at h'
          cases h'
          exact hk
    · simp only [afterLeave] at h'
      split at h'
      · exact endGame_keeps_scores _ _ _ _ _ _ (lobbiesSet_self _ _ _) h' hk
      · rw [lobbiesSet_self] at h'
        cases h'
        exact hk

/-- A score entry survives `updateBallPosition` (wall scoring increments
or leaves entries, never deletes them). -/
theorem ballPos_keeps_scores (s : ServerState) (code : String) (r1 r2 : Bool)
    (l l' : Lobby) (k : String)
    (h : s.lobbies code = some l)
    (h' : (updateBallPosition s code r1 r2).1.lobbies code = some l')
    (hk : (l.gameState.scores k).isSome) : (l'.gameState.scores k).isSome := by
  have hstep : ∀ b, ((boundaryStep l.players l.gameState.scores b r1 r2).1 k).isSome := by
    intro b
    unfold boundaryStep scoreAt
    split
    · split
      · exact scoresIncr_isSome _ _ _ hk
      · exact hk
    · split
      · split
        · exact scoresIncr_isSome _ _ _ hk
        · exact hk
      · split
        · split
          · exact scoresIncr_isSome _ _ _ hk
          · exact hk
        · split
          · split
            · exact scoresIncr_isSome _ _ _ hk
            · exact hk
          · exact hk
  simp only [updateBallPosition, h] at h'
  split at h'
  · split at h'
    · split at h'
      · exact endGame_keeps_scores _ _ _ _ _ _ (lobbiesSet_self _ _ _) h' (hstep _)
      · rw [lobbiesSet_self] at h'
        cases h'
        exact hstep _
    · rw [lobbiesSet_self] at h'
      cases h'
      exact hstep _
  · rw [h] at h'; cases h'; exact hk

/-- What a successful join does: appends the player with the next side in
rotation, zero-initializes exactly their score entry, broadcasts
`PLAYER_JOINED`, and touches nothing else — in particular it never looks at
the game status. -/
theorem joinLobby_spec (s : ServerState) (code name pid : String) (l : Lobby)
    (h : s.lobbies code = some l) (hcode : ¬ code = "") (hname : ¬ name = "")
    (hlen : l.players.length < 4) :
    (joinLobby s code name pid).2.1 = JoinResult.ok pid ∧
    (joinLobby s code name pid).1.lobbies code = some
      { l with
        players := l.players ++
          [{ id := pid, name := name, isReady := false,
             position := positionsList.getD l.players.length Pos.TOP }]
        gameState :=
          { l.gameState with scores := scoresSet l.gameState.scores pid (some 0) } } ∧
    (∀ c, c ≠ code → (joinLobby s code name pid).1.lobbies c = s.lobbies c) ∧
    (joinLobby s code name pid).1.activeTimers = s.activeTimers ∧
    (joinLobby s code name pid).2.2 = [Msg.PLAYER_JOINED name] := by
  have hnotfull : ¬ 4 ≤ l.players.length := not_le.mpr hlen
  unfold joinLobby
  simp only [h, hcode, hname, or_self, if_false, hnotfull, broadcastToLobby, lobbiesSet_self]
  refine ⟨trivial, trivial, ?_, by simp, trivial⟩
  intro c hc
  exact lobbiesSet_ne _ _ _ hc

/-- C2, counterexample: immediately after `createLobby` the host is a
current player but the `scores` object is empty — the host has no (zero)
score entry, refuting the per-player entry invariant at a reachable state. -/
theorem C2_counterexample :
    ∃ l, (createLobby initialState "Alice" "AAAA" "h1").1.lobbies "AAAA" = some l ∧
      Reachable (createLobby initialState "Alice" "AAAA" "h1").1 ∧
      l.players.map Player.id = ["h1"] ∧ l.host = "h1" ∧
      l.gameState.scores "h1" = none :=
  ⟨_, rfl, Reachable.step Reachable.init (Step.create _ "Alice" "AAAA" "h1" rfl), rfl,
    rfl, rfl⟩

/-- C2 (amended): `createLobby` leaves the `scores` map empty — the host
gets an entry only when a game starts; `joinLobby` adds exactly one zero
entry for the new player; `startGame` zero-initializes an entry for every
current player; and no handler removes an entry while the lobby survives. -/
theorem C2_scores_bookkeeping :
    (∀ s hostName code hostId, hostName ≠ "" →
      ∃ l, (createLobby s hostName code hostId).1.lobbies code = some l ∧
        l.host = hostId ∧ l.players.map Player.id = [hostId] ∧
        ∀ k, l.gameState.scores k = none) ∧
    (∀ s code name pid l, s.lobbies code = some l → code ≠ "" → name ≠ "" →
      l.players.length < 4 →
      ∃ l', (joinLobby s code name pid).1.lobbies code = some l' ∧
        l'.gameState.scores pid = some (some 0) ∧
        (∀ k, k ≠ pid → l'.gameState.scores k = l.gameState.scores k) ∧
        l'.players.map Player.id = l.players.map Player.id ++ [pid]) ∧
    (∀ s code rvx rvy l l', s.lobbies code = some l →
      (startGame s code rvx rvy).1.lobbies code = some l' →
      ∀ p ∈ l'.players, l'.gameState.scores p.id = some (some 0)) ∧
    (∀ s code pid rvx rvy l l' k, s.lobbies code = some l →
      (handlePlayerReady s code pid rvx rvy).1.lobbies code = some l' →
      (l.gameState.scores k).isSome → (l'.gameState.scores k).isSome) ∧
    (∀ s code pid d l l' k, s.lobbies code = some l →
      (handleMovePaddle s code pid d).1.lobbies code = some l' →
      (l.gameState.scores k).isSome → (l'.gameState.scores k).isSome) ∧
    (∀ s code pid l l' k, s.lobbies code = some l →
      (handlePlayerLeave s code pid).1.lobbies code = some l' →
      (l.gameState.scores k).isSome → (l'.gameState.scores k).isSome) ∧
    (∀ s code r1 r2 l l' k, s.lobbies code = some l →
      (tick s code r1 r2).1.lobbies code = some l' →
      (l.gameState.scores k).isSome → (l'.gameState.scores k).isSome) := by
  refine ⟨?_, ?_, ?_, ready_keeps_scores, move_keeps_scores, leave_keeps_scores, ?_⟩
  · intro s hostName code hostId hname
    unfold createLobby
    simp only [hname, if_false]
    exact ⟨_, lobbiesSet_self _ _ _, rfl, rfl, fun k => rfl⟩
  · intro s code name pid l h hcode hname hlen
    obtain ⟨-, hlook, -, -, -⟩ := joinLobby_spec s code name pid l h hcode hname hlen
    refine ⟨_, hlook, by simp, ?_, by simp⟩
    intro k hk
    exact scoresSet_ne _ _ _ hk
  · intro s code rvx rvy l l' h h' p hp
    obtain ⟨lfin, hlook, -, hplayers, -, -, -, hscores, -, -, -, -, -⟩ :=
      startGame_spec s code rvx rvy l h
    rw [hlook] at h'
    cases h'
    rw [hscores]
    rw [hplayers] at hp
    exact foldlZero_mem _ _ _ ⟨p, hp, rfl⟩
  · intro s code r1 r2 l l' k h h' hk
    exact ballPos_keeps_scores s code r1 r2 l l' k h h' hk

/-- Witness for C2: the join conjunct applied to the concrete
freshly-created lobby gives Bob a zero entry and leaves Alice's (absent)
entry alone. -/
theorem C2_scores_bookkeeping_witness :
    ∃ l', (joinLobby (createLobby initialState "Alice" "AAAA" "h1").1
        "AAAA" "Bob" "p2").1.lobbies "AAAA" = some l' ∧
      l'.gameState.scores "p2" = some (some 0) ∧
      (∀ k, k ≠ "p2" → l'.gameState.scores k =
        ({ code := "AAAA", host := "h1"
           players := [{ id := "h1", name := "Alice", isReady := false, position := Pos.TOP }]
           gameState :=
             { status := GStatus.WAITING
               ball := { x := 300, y := 300, velocityX := 0, velocityY := 0 }
               paddles := []
               scores := fun _ => none }
           gameLoopInterval := none } : Lobby).gameState.scores k) ∧
      l'.players.map Player.id =
        ({ code := "AAAA", host := "h1"
           players := [{ id := "h1", name := "Alice", isReady := false, position := Pos.TOP }]
           gameState :=
             { status := GStatus.WAITING
               ball := { x := 300, y := 300, velocityX := 0, velocityY := 0 }
               paddles := []
               scores := fun _ => none }
           gameLoopInterval := none } : Lobby).players.map Player.id ++ ["p2"] :=
  C2_scores_bookkeeping.2.1 _ "AAAA" "Bob" "p2" _ rfl (by decide) (by decide)
    (by decide)

/-- C10: `joinLobby` never inspects the game status — any lobby with a
known code and fewer than four players admits a non-empty-named joiner,
who is appended with a zero score entry while the paddle list and status
are left untouched (so a mid-game or post-game joiner never gets a
paddle). -/
theorem C10_join_ignores_status (s : ServerState) (code name pid : String) (l : Lobby)
    (h : s.lobbies code = some l) (hcode : ¬ code = "") (hname : ¬ name = "")
    (hlen : l.players.length < 4) :
    (joinLobby s code name pid).2.1 = JoinResult.ok pid ∧
    ∃ l', (joinLobby s code name pid).1.lobbies code = some l' ∧
      l'.gameState.status = l.gameState.status ∧
      l'.gameState.paddles = l.gameState.paddles ∧
      l'.gameState.scores pid = some (some 0) ∧
      l'.players.map Player.id = l.players.map Player.id ++ [pid] := by
  obtain ⟨hok, hlook, -, -, -⟩ := joinLobby_spec s code name pid l h hcode hname hlen
  exact ⟨hok, _, hlook, rfl, rfl, by simp, by simp⟩

/-- Witness for C10: Cara joins the concrete PLAYING lobby; the join
succeeds, her score entry is zero, and the paddle list and PLAYING status
are untouched. -/
theorem C10_join_ignores_status_witness :
    (joinLobby statePlaying "GAME" "Cara" "C").2.1 = JoinResult.ok "C" ∧
    ∃ l', (joinLobby statePlaying "GAME" "Cara" "C").1.lobbies "GAME" = some l' ∧
      l'.gameState.status = lobbyPlaying.gameState.status ∧
      l'.gameState.paddles = lobbyPlaying.gameState.paddles ∧
      l'.gameState.scores "C" = some (some 0) ∧
      l'.players.map Player.id = lobbyPlaying.players.map Player.id ++ ["C"] :=
  C10_join_ignores_status statePlaying "GAME" "Cara" "C" lobbyPlaying rfl
    (by decide) (by decide) (by decide)

/-! ## Readiness handling -/

theorem setReadyFirst_length (ps : List Player) (pid : String) :
    (setReadyFirst ps pid).length = ps.length := by
  induction ps with
  | nil => rfl
  | cons p rest ih =>
    unfold setReadyFirst
    split
    · simp
    · simp [ih]

theorem setReadyFirst_not_found (ps : List Player) (pid : String)
    (h : ∀ p ∈ ps, ¬ p.id = pid) : setReadyFirst ps pid = ps := by
  induction ps with
  | nil => rfl
  | cons p rest ih =>
    unfold setReadyFirst
    rw [if_neg (h p (List.mem_cons_self _ _))]
    rw [ih (fun q hq => h q (List.mem_cons_of_mem _ hq))]

/-- The branch structure of `handlePlayerReady` on a lobby that exists:
the redefined player list decides between a game start and a plain
state broadcast. -/
theorem handlePlayerReady_branches (s : ServerState) (code pid : String)
    (rvx rvy : Bool) (l : Lobby) (h : s.lobbies code = some l) :
    ((setReadyFirst l.players pid).all (fun p => p.isReady) = true ∧
        2 ≤ (setReadyFirst l.players pid).length →
      handlePlayerReady s code pid rvx rvy =
        startGame (lobbiesSet s code { l with players := setReadyFirst l.players pid })
          code rvx rvy) ∧
    (¬ ((setReadyFirst l.players pid).all (fun p => p.isReady) = true ∧
        2 ≤ (setReadyFirst l.players pid).length) →
      handlePlayerReady s code pid rvx rvy =
        (lobbiesSet s code { l with players := setReadyFirst l.players pid },
          [Msg.GAME_STATE_UPDATE l.gameState])) := by
  constructor
  · intro hc
    simp only [handlePlayerReady, h]
    rw [if_pos hc]
  · intro hc
    simp only [handlePlayerReady, h]
    rw [if_neg hc]
    simp [updateGameState, broadcastToLobby, lobbiesSet_self]

/-- The status outcome of `handlePlayerReady` for a lobby that is not
currently PLAYING, whatever its status: the game starts (status PLAYING)
iff after the flag update every player is ready and at least two players
are present; otherwise only the flag changes and a snapshot is broadcast. -/
theorem ready_outcome (s : ServerState) (code pid : String) (rvx rvy : Bool)
    (l : Lobby) (h : s.lobbies code = some l)
    (hnp : l.gameState.status ≠ GStatus.PLAYING) :
    ∃ l', (handlePlayerReady s code pid rvx rvy).1.lobbies code = some l' ∧
      (l'.gameState.status = GStatus.PLAYING ↔
        ((setReadyFirst l.players pid).all (fun p => p.isReady) = true ∧
         2 ≤ (setReadyFirst l.players pid).length)) ∧
      (¬ ((setReadyFirst l.players pid).all (fun p => p.isReady) = true ∧
          2 ≤ (setReadyFirst l.players pid).length) →
        l' = { l with players := setReadyFirst l.players pid } ∧
        (handlePlayerReady s code pid rvx rvy).2 =
          [Msg.GAME_STATE_UPDATE l.gameState]) := by
  obtain ⟨hpos, hneg⟩ := handlePlayerReady_branches s code pid rvx rvy l h
  by_cases hc : (setReadyFirst l.players pid).all (fun p => p.isReady) = true ∧
      2 ≤ (setReadyFirst l.players pid).length
  · obtain ⟨lfin, hlook, hst, -⟩ :=
      startGame_spec (lobbiesSet s code { l with players := setReadyFirst l.players pid })
        code rvx rvy _ (lobbiesSet_self _ _ _)
    refine ⟨lfin, ?_, ?_, fun hcontra => absurd hc hcontra⟩
    · rw [hpos hc]
      exact hlook
    · exact ⟨fun _ => hc, fun _ => hst⟩
  · refine ⟨{ l with players := setReadyFirst l.players pid }, ?_, ?_, fun _ => ⟨rfl, ?_⟩⟩
    · rw [hneg hc]
      exact lobbiesSet_self _ _ _
    · constructor
      · intro hst
        exact absurd (show l.gameState.status = GStatus.PLAYING from hst) hnp
      · intro hcc
        exact absurd hcc hc
    · rw [hneg hc]

/-- C7: on a WAITING lobby, a PLAYER_READY from a current member moves the
status to PLAYING iff, after that member's readiness flag has been set,
every current player is ready and at least two players are present;
otherwise the handler only records the flag and broadcasts the updated
state. -/
theorem C7_ready_starts_iff (s : ServerState) (code pid : String) (rvx rvy : Bool)
    (l : Lobby) (h : s.lobbies code = some l)
    (hw : l.gameState.status = GStatus.WAITING)
    (hmem : (l.players.find? (fun p => p.id = pid)).isSome) :
    ∃ l', (handlePlayerReady s code pid rvx rvy).1.lobbies code = some l' ∧
      (l'.gameState.status = GStatus.PLAYING ↔
        ((setReadyFirst l.players pid).all (fun p => p.isReady) = true ∧
         2 ≤ (setReadyFirst l.players pid).length)) ∧
      (¬ ((setReadyFirst l.players pid).all (fun p => p.isReady) = true ∧
          2 ≤ (setReadyFirst l.players pid).length) →
        l' = { l with players := setReadyFirst l.players pid } ∧
        (handlePlayerReady s code pid rvx rvy).2 =
          [Msg.GAME_STATE_UPDATE l.gameState]) :=
  ready_outcome s code pid rvx rvy l h (by rw [hw]; exact fun hx => nomatch hx)

/-- Witness for C7: Bob, the not-yet-ready member of the concrete WAITING
lobby, sends PLAYER_READY; both players are then ready, so the iff yields
status PLAYING. -/
theorem C7_ready_starts_iff_witness :
    ∃ l', (handlePlayerReady stateWaiting "WAIT" "B" true false).1.lobbies "WAIT" = some l' ∧
      (l'.gameState.status = GStatus.PLAYING ↔
        ((setReadyFirst lobbyWaiting.players "B").all (fun p => p.isReady) = true ∧
         2 ≤ (setReadyFirst lobbyWaiting.players "B").length)) ∧
      (¬ ((setReadyFirst lobbyWaiting.players "B").all (fun p => p.isReady) = true ∧
          2 ≤ (setReadyFirst lobbyWaiting.players "B").length) →
        l' = { lobbyWaiting with players := setReadyFirst lobbyWaiting.players "B" } ∧
        (handlePlayerReady stateWaiting "WAIT" "B" true false).2 =
          [Msg.GAME_STATE_UPDATE lobbyWaiting.gameState]) :=
  C7_ready_starts_iff stateWaiting "WAIT" "B" true false lobbyWaiting rfl rfl (by decide)

/-- C1, counterexample: a GAME_OVER lobby in which Alice is ready and Bob
is not; Bob's PLAYER_READY makes everyone ready, and `handlePlayerReady`
— which never checks the status — restarts the game, moving the lobby
back from GAME_OVER to PLAYING. -/
theorem C1_counterexample :
    (stateOver.lobbies "OVER").map (fun l => l.gameState.status) =
      some GStatus.GAME_OVER ∧
    ((handlePlayerReady stateOver "OVER" "B" true true).1.lobbies "OVER").map
      (fun l => l.gameState.status) = some GStatus.PLAYING :=
  ⟨rfl, rfl⟩

/-- C1 (amended): GAME_OVER is terminal for paddle input, physics ticks
and departures — `handleMovePaddle` and `updateBallPosition` are complete
no-ops on a GAME_OVER lobby and a departure leaves the status GAME_OVER
(or destroys the lobby) — but not for PLAYER_READY: `handlePlayerReady`
ignores the status and restarts the game (GAME_OVER → PLAYING) exactly
when, after the sender's flag update, all current players are ready and at
least two are present. -/
theorem C1_game_over_not_terminal (s : ServerState) (code pid : String) (l : Lobby)
    (h : s.lobbies code = some l)
    (hst : l.gameState.status = GStatus.GAME_OVER) :
    (∀ d, handleMovePaddle s code pid d = (s, [])) ∧
    (∀ r1 r2, updateBallPosition s code r1 r2 = (s, [])) ∧
    (∀ l', (handlePlayerLeave s code pid).1.lobbies code = some l' →
      l'.gameState.status = GStatus.GAME_OVER) ∧
    (∀ rvx rvy, ∃ l',
      (handlePlayerReady s code pid rvx rvy).1.lobbies code = some l' ∧
      (l'.gameState.status = GStatus.PLAYING ↔
        ((setReadyFirst l.players pid).all (fun p => p.isReady) = true ∧
         2 ≤ (setReadyFirst l.players pid).length))) := by
  have hnp : l.gameState.status ≠ GStatus.PLAYING := by
    rw [hst]
    exact fun hx => nomatch hx
  refine ⟨?_, ?_, ?_, ?_⟩
  · intro d
    exact handleMovePaddle_not_playing s code pid d l h hnp
  · intro r1 r2
    exact updateBallPosition_not_playing s code r1 r2 l h hnp
  · intro l' h'
    simp only [handlePlayerLeave, h] at h'
    split at h'
    · rw [h] at h'; cases h'; exact hst
    · split at h'
      · split at h'
        · simp [lobbiesDelete] at h'
        · simp only [afterLeave] at h'
          rw [if_neg (by simpa using hnp)] at h'
          rw [lobbiesSet_self] at h'
          cases h'
          exact hst
      · simp only [afterLeave] at h'
        rw [if_neg (by simpa using hnp)] at h'
        rw [lobbiesSet_self] at h'
        cases h'
        exact hst
  · intro rvx rvy
    obtain ⟨l', hlook, hiff, -⟩ := ready_outcome s code pid rvx rvy l h hnp
    exact ⟨l', hlook, hiff⟩

/-- Witness for C1: on the concrete GAME_OVER lobby, moves and ticks are
no-ops, leaving keeps the status GAME_OVER, and Bob's PLAYER_READY
restarts the game by the iff. -/
theorem C1_game_over_not_terminal_witness :
    (∀ d, handleMovePaddle stateOver "OVER" "B" d = (stateOver, [])) ∧
    (∀ r1 r2, updateBallPosition stateOver "OVER" r1 r2 = (stateOver, [])) ∧
    (∀ l', (handlePlayerLeave stateOver "OVER" "B").1.lobbies "OVER" = some l' →
      l'.gameState.status = GStatus.GAME_OVER) ∧
    (∀ rvx rvy, ∃ l',
      (handlePlayerReady stateOver "OVER" "B" rvx rvy).1.lobbies "OVER" = some l' ∧
      (l'.gameState.status = GStatus.PLAYING ↔
        ((setReadyFirst lobbyOver.players "B").all (fun p => p.isReady) = true ∧
         2 ≤ (setReadyFirst lobbyOver.players "B").length))) :=
  C1_game_over_not_terminal stateOver "OVER" "B" lobbyOver rfl rfl

/-- C5, counterexample: `handlePlayerReady` with a playerId that is not a
member of the lobby is not a silent no-op — on the concrete one-player
WAITING lobby it still emits a `GAME_STATE_UPDATE` broadcast (one message,
not zero). -/
theorem C5_counterexample :
    lobbySolo.players.find? (fun p => p.id = "ghost") = none ∧
    (handlePlayerReady stateSolo "SOLO" "ghost" true true).2.length = 1 :=
  ⟨rfl, rfl⟩

/-- C5 (amended): a stale playerId never crashes a handler and never
touches player state: `handlePlayerLeave` with an unknown playerId is a
complete no-op, `handleMovePaddle` is a complete no-op whenever the player
has no paddle, and `handlePlayerReady` with an unknown playerId sets no
readiness flag — but it still runs the all-ready evaluation, so it either
starts the game (when every current player is ready and at least two are
present) or broadcasts the unchanged state rather than staying silent. -/
theorem C5_unknown_player (s : ServerState) (code pid : String) (rvx rvy : Bool)
    (d : Direction) (l : Lobby) (h : s.lobbies code = some l) :
    (l.players.find? (fun p => p.id = pid) = none →
      handlePlayerLeave s code pid = (s, []) ∧
      setReadyFirst l.players pid = l.players ∧
      (l.players.all (fun p => p.isReady) = true ∧ 2 ≤ l.players.length →
        handlePlayerReady s code pid rvx rvy = startGame s code rvx rvy) ∧
      (¬ (l.players.all (fun p => p.isReady) = true ∧ 2 ≤ l.players.length) →
        handlePlayerReady s code pid rvx rvy =
          (s, [Msg.GAME_STATE_UPDATE l.gameState]))) ∧
    (l.gameState.paddles.find? (fun q => q.playerId = pid) = none →
      handleMovePaddle s code pid d = (s, [])) := by
  constructor
  · intro hfind
    have hnotmem : ∀ p ∈ l.players, ¬ p.id = pid := by
      intro p hp
      have := List.find?_eq_none.mp hfind p hp
      simpa using this
    have hsrf : setReadyFirst l.players pid = l.players :=
      setReadyFirst_not_found l.players pid hnotmem
    have hs1 : lobbiesSet s code { l with players := setReadyFirst l.players pid } = s := by
      rw [hsrf]
      exact lobbiesSet_eq_self h
    obtain ⟨hpos, hneg⟩ := handlePlayerReady_branches s code pid rvx rvy l h
    refine ⟨?_, hsrf, ?_, ?_⟩
    · simp only [handlePlayerLeave, h, hfind]
    · intro hc
      rw [hpos (by rw [hsrf]; exact hc), hs1]
    · intro hc
      rw [hneg (by rw [hsrf]; exact hc), hs1]
  · intro hfind
    simp only [handleMovePaddle, h, hfind]
    split
    · rfl
    · rfl

/-- Witness for C5: on the concrete one-player lobby, the stale id "ghost"
leaves by no-op, sets no flag, cannot start a one-player game, and the
ready handler answers with a snapshot broadcast of the unchanged state. -/
theorem C5_unknown_player_witness :
    handlePlayerLeave stateSolo "SOLO" "ghost" = (stateSolo, []) ∧
    handlePlayerReady stateSolo "SOLO" "ghost" true true =
      (stateSolo, [Msg.GAME_STATE_UPDATE lobbySolo.gameState]) ∧
    handleMovePaddle stateSolo "SOLO" "ghost" Direction.LEFT = (stateSolo, []) := by
  obtain ⟨hmain, hmove⟩ :=
    C5_unknown_player stateSolo "SOLO" "ghost" true true Direction.LEFT lobbySolo rfl
  obtain ⟨hleave, -, -, hready⟩ := hmain (by decide)
  exact ⟨hleave, hready (by decide), hmove (by decide)⟩

/-! ## Paddle movement -/

/-- On the 10-unit lattice, a strictly positive coordinate is at least one
full step from the wall. -/
theorem ten_le_of_step {x : ℚ} {a : ℤ} (hx : x = 10 * a) (h0 : 0 < x) : 10 ≤ x := by
  subst hx
  have ha0 : (0 : ℚ) < (a : ℚ) := by linarith
  have ha : (0 : ℤ) < a := by exact_mod_cast ha0
  have ha1 : (1 : ℤ) ≤ a := ha
  have : (1 : ℚ) ≤ (a : ℚ) := by exact_mod_cast ha1
  linarith

/-- On the 10-unit lattice, a paddle strictly inside the 600 bound has
room for one full step. -/
theorem step_fits {x w : ℚ} {a b : ℤ} (hx : x = 10 * a) (hw : w = 10 * b)
    (h : x + w < 600) : x + 10 + w ≤ 600 := by
  subst hx hw
  have hq : (10 : ℚ) * ((a : ℚ) + (b : ℚ)) < 600 := by linarith
  have hab : a + b < 60 := by
    by_contra hc
    push_neg at hc
    have : (60 : ℚ) ≤ ((a : ℚ) + (b : ℚ)) := by exact_mod_cast hc
    linarith
  have hab59 : a + b ≤ 59 := by omega
  have : ((a : ℚ) + (b : ℚ)) ≤ 59 := by exact_mod_cast hab59
  linarith

/-- Every effect of one `movePaddle` call from a lattice-aligned in-bounds
paddle: the movable coordinate moves by exactly 10 or not at all, the
other coordinate and the extent never change, and both axes stay inside
the 600-unit playfield. -/
theorem movePaddle_props (pad : Paddle) (d : Direction)
    (ax ay bw bh : ℤ) (hx : pad.x = 10 * ax) (hy : pad.y = 10 * ay)
    (hw : pad.width = 10 * bw) (hh : pad.height = 10 * bh)
    (hbx1 : 0 ≤ pad.x) (hbx2 : pad.x + pad.width ≤ 600)
    (hby1 : 0 ≤ pad.y) (hby2 : pad.y + pad.height ≤ 600) :
    ((movePaddle pad d).x = pad.x ∨ (movePaddle pad d).x = pad.x - 10 ∨
      (movePaddle pad d).x = pad.x + 10) ∧
    ((movePaddle pad d).y = pad.y ∨ (movePaddle pad d).y = pad.y - 10 ∨
      (movePaddle pad d).y = pad.y + 10) ∧
    (movePaddle pad d).width = pad.width ∧
    (movePaddle pad d).height = pad.height ∧
    (movePaddle pad d).position = pad.position ∧
    (movePaddle pad d).playerId = pad.playerId ∧
    ((pad.position = Pos.TOP ∨ pad.position = Pos.BOTTOM) →
      (movePaddle pad d).y = pad.y) ∧
    ((pad.position = Pos.LEFT ∨ pad.position = Pos.RIGHT) →
      (movePaddle pad d).x = pad.x) ∧
    0 ≤ (movePaddle pad d).x ∧
    (movePaddle pad d).x + (movePaddle pad d).width ≤ 600 ∧
    0 ≤ (movePaddle pad d).y ∧
    (movePaddle pad d).y + (movePaddle pad d).height ≤ 600 := by
  unfold movePaddle
  cases hpos : pad.position with
  | TOP =>
    dsimp only
    split_ifs with h1 h2
    · have h10 : (10 : ℚ) ≤ pad.x := ten_le_of_step hx h1.2
      exact ⟨Or.inr (Or.inl rfl), Or.inl rfl, rfl, rfl, rfl, rfl, fun _ => rfl,
        fun hc => by rcases hc with hc | hc <;> simp at hc,
        by show (0 : ℚ) ≤ pad.x - 10; linarith,
        by show pad.x - 10 + pad.width ≤ 600; linarith, hby1, hby2⟩
    · have hfit := step_fits hx hw h2.2
      exact ⟨Or.inr (Or.inr rfl), Or.inl rfl, rfl, rfl, rfl, rfl, fun _ => rfl,
        fun hc => by rcases hc with hc | hc <;> simp at hc,
        by show (0 : ℚ) ≤ pad.x + 10; linarith,
        by show pad.x + 10 + pad.width ≤ 600; linarith, hby1, hby2⟩
    · exact ⟨Or.inl rfl, Or.inl rfl, rfl, rfl, hpos, rfl, fun _ => rfl,
        fun hc => by rcases hc with hc | hc <;> simp at hc, hbx1, hbx2, hby1, hby2⟩
  | BOTTOM =>
    dsimp only
    split_ifs with h1 h2
    · have h10 : (10 : ℚ) ≤ pad.x := ten_le_of_step hx h1.2
      exact ⟨Or.inr (Or.inl rfl), Or.inl rfl, rfl, rfl, rfl, rfl, fun _ => rfl,
        fun hc => by rcases hc with hc | hc <;> simp at hc,
        by show (0 : ℚ) ≤ pad.x - 10; linarith,
        by show pad.x - 10 + pad.width ≤ 600; linarith, hby1, hby2⟩
    · have hfit := step_fits hx hw h2.2
      exact ⟨Or.inr (Or.inr rfl), Or.inl rfl, rfl, rfl, rfl, rfl, fun _ => rfl,
        fun hc => by rcases hc with hc | hc <;> simp at hc,
        by show (0 : ℚ) ≤ pad.x + 10; linarith,
        by show pad.x + 10 + pad.width ≤ 600; linarith, hby1, hby2⟩
    · exact ⟨Or.inl rfl, Or.inl rfl, rfl, rfl, hpos, rfl, fun _ => rfl,
        fun hc => by rcases hc with hc | hc <;> simp at hc, hbx1, hbx2, hby1, hby2⟩
  | LEFT =>
    dsimp only
    split_ifs with h1 h2
    · have h10 : (10 : ℚ) ≤ pad.y := ten_le_of_step hy h1.2
      exact ⟨Or.inl rfl, Or.inr (Or.inl rfl), rfl, rfl, rfl, rfl,
        fun hc => by rcases hc with hc | hc <;> simp at hc, fun _ => rfl,
        hbx1, hbx2,
        by show (0 : ℚ) ≤ pad.y - 10; linarith,
        by show pad.y - 10 + pad.height ≤ 600; linarith⟩
    · have hfit := step_fits hy hh h2.2
      exact ⟨Or.inl rfl, Or.inr (Or.inr rfl), rfl, rfl, rfl, rfl,
        fun hc => by rcases hc with hc | hc <;> simp at hc, fun _ => rfl,
        hbx1, hbx2,
        by show (0 : ℚ) ≤ pad.y + 10; linarith,
        by show pad.y + 10 + pad.height ≤ 600; linarith⟩
    · exact ⟨Or.inl rfl, Or.inl rfl, rfl, rfl, hpos, rfl,
        fun hc => by rcases hc with hc | hc <;> simp at hc, fun _ => rfl,
        hbx1, hbx2, hby1, hby2⟩
  | RIGHT =>
    dsimp only
    split_ifs with h1 h2
    · have h10 : (10 : ℚ) ≤ pad.y := ten_le_of_step hy h1.2
      exact ⟨Or.inl rfl, Or.inr (Or.inl rfl), rfl, rfl, rfl, rfl,
        fun hc => by rcases hc with hc | hc <;> simp at hc, fun _ => rfl,
        hbx1, hbx2,
        by show (0 : ℚ) ≤ pad.y - 10; linarith,
        by show pad.y - 10 + pad.height ≤ 600; linarith⟩
    · have hfit := step_fits hy hh h2.2
      exact ⟨Or.inl rfl, Or.inr (Or.inr rfl), rfl, rfl, rfl, rfl,
        fun hc => by rcases hc with hc | hc <;> simp at hc, fun _ => rfl,
        hbx1, hbx2,
        by show (0 : ℚ) ≤ pad.y + 10; linarith,
        by show pad.y + 10 + pad.height ≤ 600; linarith⟩
    · exact ⟨Or.inl rfl, Or.inl rfl, rfl, rfl, hpos, rfl,
        fun hc => by rcases hc with hc | hc <;> simp at hc, fun _ => rfl,
        hbx1, hbx2, hby1, hby2⟩

/-- A successful `find?` splits its list at the first hit. -/
theorem find?_split {α : Type} (p : α → Bool) :
    ∀ (xs : List α) (a : α), xs.find? p = some a →
      ∃ l1 l2, xs = l1 ++ a :: l2 ∧ (∀ b ∈ l1, p b = false) ∧ p a = true := by
  intro xs
  induction xs with
  | nil => intro a h; cases h
  | cons x rest ih =>
    intro a h
    by_cases hx : p x = true
    · rw [List.find?_cons_of_pos _ hx] at h
      cases h
      exact ⟨[], rest, rfl, by simp, hx⟩
    · have hx' : p x = false := by simpa using hx
      rw [List.find?_cons_of_neg _ hx] at h
      obtain ⟨l1, l2, heq, hall, hpa⟩ := ih a h
      refine ⟨x :: l1, l2, by rw [heq, List.cons_append], ?_, hpa⟩
      intro b hb
      rcases List.mem_cons.mp hb with rfl | hb
      · exact hx'
      · exact hall b hb

/-- `movePaddleFirst` rewrites exactly the first paddle owned by the
player. -/
theorem movePaddleFirst_append (ps1 : List Paddle) (pad : Paddle) (ps2 : List Paddle)
    (pid : String) (d : Direction)
    (h1 : ∀ q ∈ ps1, ¬ q.playerId = pid) (h2 : pad.playerId = pid) :
    movePaddleFirst (ps1 ++ pad :: ps2) pid d = ps1 ++ movePaddle pad d :: ps2 := by
  induction ps1 with
  | nil =>
    rw [List.nil_append, List.nil_append]
    unfold movePaddleFirst
    rw [if_pos h2]
  | cons q rest ih =>
    rw [List.cons_append, List.cons_append]
    unfold movePaddleFirst
    rw [if_neg (h1 q (List.mem_cons_self _ _))]
    rw [ih (fun r hr => h1 r (List.mem_cons_of_mem _ hr))]

/-- C3: a MOVE_PADDLE processed while PLAYING rewrites exactly the
player's (first) paddle through `movePaddle`: the paddle moves by exactly
10 units along its movable axis or not at all, the perpendicular
coordinate and the extents never change, and afterwards the paddle still
lies entirely inside the 600-unit playfield bound on both axes.  The
lattice/bounds hypotheses hold for every reachable paddle: `startGame`
places paddles on the 10-unit lattice inside the bounds and every move
step preserves that. -/
theorem C3_move_clamped (s : ServerState) (code pid : String) (d : Direction)
    (l : Lobby) (pad : Paddle)
    (h : s.lobbies code = some l)
    (hpl : l.gameState.status = GStatus.PLAYING)
    (hfind : l.gameState.paddles.find? (fun q => q.playerId = pid) = some pad)
    (ax ay bw bh : ℤ) (hx : pad.x = 10 * ax) (hy : pad.y = 10 * ay)
    (hw : pad.width = 10 * bw) (hh : pad.height = 10 * bh)
    (hbx1 : 0 ≤ pad.x) (hbx2 : pad.x + pad.width ≤ 600)
    (hby1 : 0 ≤ pad.y) (hby2 : pad.y + pad.height ≤ 600) :
    ∃ l' ps1 ps2,
      (handleMovePaddle s code pid d).1.lobbies code = some l' ∧
      l.gameState.paddles = ps1 ++ pad :: ps2 ∧
      l'.gameState.paddles = ps1 ++ movePaddle pad d :: ps2 ∧
      (((movePaddle pad d).x = pad.x ∨ (movePaddle pad d).x = pad.x - 10 ∨
          (movePaddle pad d).x = pad.x + 10) ∧
        ((movePaddle pad d).y = pad.y ∨ (movePaddle pad d).y = pad.y - 10 ∨
          (movePaddle pad d).y = pad.y + 10) ∧
        (movePaddle pad d).width = pad.width ∧
        (movePaddle pad d).height = pad.height ∧
        (movePaddle pad d).position = pad.position ∧
        (movePaddle pad d).playerId = pad.playerId ∧
        ((pad.position = Pos.TOP ∨ pad.position = Pos.BOTTOM) →
          (movePaddle pad d).y = pad.y) ∧
        ((pad.position = Pos.LEFT ∨ pad.position = Pos.RIGHT) →
          (movePaddle pad d).x = pad.x) ∧
        0 ≤ (movePaddle pad d).x ∧
        (movePaddle pad d).x + (movePaddle pad d).width ≤ 600 ∧
        0 ≤ (movePaddle pad d).y ∧
        (movePaddle pad d).y + (movePaddle pad d).height ≤ 600) := by
  obtain ⟨ps1, ps2, hsplit, hmiss, hpa⟩ := find?_split _ _ _ hfind
  have hpid : pad.playerId = pid := of_decide_eq_true hpa
  have hmiss' : ∀ q ∈ ps1, ¬ q.playerId = pid := by
    intro q hq
    have := hmiss q hq
    simpa using this
  refine ⟨{ l with gameState :=
      { l.gameState with paddles := movePaddleFirst l.gameState.paddles pid d } },
    ps1, ps2, ?_, hsplit, ?_,
    movePaddle_props pad d ax ay bw bh hx hy hw hh hbx1 hbx2 hby1 hby2⟩
  · simp only [handleMovePaddle, h, hfind]
    rw [if_pos hpl]
    exact lobbiesSet_self _ _ _
  · dsimp only
    rw [hsplit]
    exact movePaddleFirst_append ps1 pad ps2 pid d hmiss' hpid

/-- Witness for C3: Alice moves her TOP paddle left from x = 250 in the
concrete PLAYING lobby. -/
theorem C3_move_clamped_witness :
    ∃ l' ps1 ps2,
      (handleMovePaddle statePlaying "GAME" "A" Direction.LEFT).1.lobbies "GAME" = some l' ∧
      lobbyPlaying.gameState.paddles = ps1 ++ paddleFor playerA :: ps2 ∧
      l'.gameState.paddles = ps1 ++ movePaddle (paddleFor playerA) Direction.LEFT :: ps2 ∧
      (((movePaddle (paddleFor playerA) Direction.LEFT).x = (paddleFor playerA).x ∨
          (movePaddle (paddleFor playerA) Direction.LEFT).x = (paddleFor playerA).x - 10 ∨
          (movePaddle (paddleFor playerA) Direction.LEFT).x = (paddleFor playerA).x + 10) ∧
        ((movePaddle (paddleFor playerA) Direction.LEFT).y = (paddleFor playerA).y ∨
          (movePaddle (paddleFor playerA) Direction.LEFT).y = (paddleFor playerA).y - 10 ∨
          (movePaddle (paddleFor playerA) Direction.LEFT).y = (paddleFor playerA).y + 10) ∧
        (movePaddle (paddleFor playerA) Direction.LEFT).width = (paddleFor playerA).width ∧
        (movePaddle (paddleFor playerA) Direction.LEFT).height = (paddleFor playerA).height ∧
        (movePaddle (paddleFor playerA) Direction.LEFT).position = (paddleFor playerA).position ∧
        (movePaddle (paddleFor playerA) Direction.LEFT).playerId = (paddleFor playerA).playerId ∧
        (((paddleFor playerA).position = Pos.TOP ∨ (paddleFor playerA).position = Pos.BOTTOM) →
          (movePaddle (paddleFor playerA) Direction.LEFT).y = (paddleFor playerA).y) ∧
        (((paddleFor playerA).position = Pos.LEFT ∨ (paddleFor playerA).position = Pos.RIGHT) →
          (movePaddle (paddleFor playerA) Direction.LEFT).x = (paddleFor playerA).x) ∧
        0 ≤ (movePaddle (paddleFor playerA) Direction.LEFT).x ∧
        (movePaddle (paddleFor playerA) Direction.LEFT).x +
          (movePaddle (paddleFor playerA) Direction.LEFT).width ≤ 600 ∧
        0 ≤ (movePaddle (paddleFor playerA) Direction.LEFT).y ∧
        (movePaddle (paddleFor playerA) Direction.LEFT).y +
          (movePaddle (paddleFor playerA) Direction.LEFT).height ≤ 600) :=
  C3_move_clamped statePlaying "GAME" "A" Direction.LEFT lobbyPlaying (paddleFor playerA)
    rfl rfl rfl 25 2 10 1
    (by norm_num [paddleFor, playerA]) (by norm_num [paddleFor, playerA])
    (by norm_num [paddleFor, playerA]) (by norm_num [paddleFor, playerA])
    (by norm_num [paddleFor, playerA]) (by norm_num [paddleFor, playerA])
    (by norm_num [paddleFor, playerA]) (by norm_num [paddleFor, playerA])

/-! ## Ball collision -/

theorem movedBall_velocityX (b : Ball) : (movedBall b).velocityX = b.velocityX := rfl

theorem movedBall_velocityY (b : Ball) : (movedBall b).velocityY = b.velocityY := rfl

/-- The collision loop never moves the ball, it only redirects it. -/
theorem applyCollision_keeps_pos (b : Ball) (ps : List Paddle) :
    (applyCollision b ps).x = b.x ∧ (applyCollision b ps).y = b.y := by
  induction ps with
  | nil => exact ⟨rfl, rfl⟩
  | cons q rest ih =>
    unfold applyCollision
    split
    · split <;> exact ⟨rfl, rfl⟩
    · exact ih

/-- When the first colliding paddle guards TOP, the loop inverts the
vertical velocity component and scales both components by the double
1.05 in binary64 arithmetic. -/
theorem applyCollision_top (b : Ball) (ps1 : List Paddle) (pad : Paddle) (ps2 : List Paddle)
    (hmiss : ∀ q ∈ ps1, checkCollision b q = false)
    (hhit : checkCollision b pad = true)
    (htop : pad.position = Pos.TOP) :
    applyCollision b (ps1 ++ pad :: ps2) =
      { b with velocityX := mulB64 b.velocityX lit105
               velocityY := mulB64 (-b.velocityY) lit105 } := by
  induction ps1 with
  | nil =>
    rw [List.nil_append]
    unfold applyCollision
    rw [if_pos hhit, htop]
  | cons q rest ih =>
    rw [List.cons_append]
    unfold applyCollision
    rw [if_neg (by simp [hmiss q (List.mem_cons_self _ _)])]
    exact ih (fun r hr => hmiss r (List.mem_cons_of_mem _ hr))

/-- Evaluation helper: `rne` when the fraction is strictly above one
half. -/
theorem rne_of_gt (q : ℚ) (f : ℤ) (hf : ⌊q⌋ = f) (h : 1 / 2 < q - (f : ℚ)) :
    rne q = f + 1 := by
  unfold rne
  rw [hf, if_neg (by linarith), if_pos h]

/-- Evaluation helper: `rne` at an exact tie next to an even integer. -/
theorem rne_tie_even (q : ℚ) (f : ℤ) (hf : ⌊q⌋ = f) (h : q - (f : ℚ) = 1 / 2)
    (he : 2 ∣ f) : rne q = f := by
  unfold rne
  rw [hf, if_neg (by rw [h]; exact lt_irrefl _), if_neg (by rw [h]; exact lt_irrefl _),
    if_pos he]

/-- Evaluation helper: `rne` at an exact tie next to an odd integer. -/
theorem rne_tie_odd (q : ℚ) (f : ℤ) (hf : ⌊q⌋ = f) (h : q - (f : ℚ) = 1 / 2)
    (ho : ¬ 2 ∣ f) : rne q = f + 1 := by
  unfold rne
  rw [hf, if_neg (by rw [h]; exact lt_irrefl _), if_neg (by rw [h]; exact lt_irrefl _),
    if_neg ho]

/-- Evaluation helper: `roundB64` from a pinned exponent and a pinned
rounded significand. -/
theorem roundB64_concrete (q : ℚ) (e m : ℤ) (hq : ¬ q = 0)
    (hlog : Int.log 2 |q| = e)
    (hrne : rne (q * 2 ^ ((52 : ℤ) - e)) = m) :
    roundB64 q = (m : ℚ) * 2 ^ (e - 52) := by
  unfold roundB64
  rw [if_neg hq, hlog, hrne]

/-- The double the source literal `1.05` denotes: 4728779608739021 · 2⁻⁵²,
slightly above 21/20. -/
theorem lit105_eq : lit105 = 4728779608739021 / 4503599627370496 := by
  have hlog : Int.log 2 |(1.05 : ℚ)| = 0 := by
    rw [abs_of_pos (by norm_num), Int.log_of_one_le_right _ (by norm_num)]
    have hfl : ⌊(1.05 : ℚ)⌋₊ = 1 := by
      rw [Nat.floor_eq_iff (by norm_num)]
      norm_num
    rw [hfl, Nat.log_one_right]
    rfl
  have hrne : rne ((1.05 : ℚ) * 2 ^ ((52 : ℤ) - 0)) = 4728779608739021 := by
    have harg : (1.05 : ℚ) * 2 ^ ((52 : ℤ) - 0) = 23643898043695104 / 5 := by
      norm_num
    rw [harg]
    refine rne_of_gt _ 4728779608739020 ?_ (by push_cast; norm_num)
    rw [Int.floor_eq_iff]
    constructor <;> push_cast <;> norm_num
  unfold lit105
  rw [roundB64_concrete _ 0 4728779608739021 (by norm_num) hlog hrne]
  norm_num

/-- Binary64: 3 × 1.05 rounds (a significand tie, to even) to
7093169413108532 · 2⁻⁵¹ = 3.1500000000000004…, not 3.15. -/
theorem mulB64_three : mulB64 3 lit105 = 7093169413108532 / 2251799813685248 := by
  unfold mulB64
  rw [lit105_eq]
  have harg : (3 : ℚ) * (4728779608739021 / 4503599627370496) =
      14186338826217063 / 4503599627370496 := by norm_num
  rw [harg]
  have hlog : Int.log 2 |(14186338826217063 / 4503599627370496 : ℚ)| = 1 := by
    rw [abs_of_pos (by norm_num), Int.log_of_one_le_right _ (by norm_num)]
    have hfl : ⌊(14186338826217063 / 4503599627370496 : ℚ)⌋₊ = 3 := by
      rw [Nat.floor_eq_iff (by norm_num)]
      norm_num
    rw [hfl, @Nat.log_eq_of_pow_le_of_lt_pow 2 1 3 (by norm_num) (by norm_num)]
    rfl
  have hrne : rne ((14186338826217063 / 4503599627370496 : ℚ) * 2 ^ ((52 : ℤ) - 1)) =
      7093169413108532 := by
    have harg2 : (14186338826217063 / 4503599627370496 : ℚ) * 2 ^ ((52 : ℤ) - 1) =
        14186338826217063 / 2 := by norm_num
    rw [harg2]
    refine rne_tie_odd _ 7093169413108531 ?_ (by push_cast; norm_num) (by decide)
    rw [Int.floor_eq_iff]
    constructor <;> push_cast <;> norm_num
  rw [roundB64_concrete _ 1 7093169413108532 (by norm_num) hlog hrne]
  norm_num

/-- Binary64: (−3) × 1.05 rounds symmetrically to −7093169413108532 · 2⁻⁵¹. -/
theorem mulB64_neg_three :
    mulB64 (-3) lit105 = -(7093169413108532 / 2251799813685248) := by
  unfold mulB64
  rw [lit105_eq]
  have harg : (-3 : ℚ) * (4728779608739021 / 4503599627370496) =
      -(14186338826217063 / 4503599627370496) := by norm_num
  rw [harg]
  have hlog : Int.log 2 |(-(14186338826217063 / 4503599627370496) : ℚ)| = 1 := by
    rw [abs_of_neg (by norm_num), neg_neg, Int.log_of_one_le_right _ (by norm_num)]
    have hfl : ⌊(14186338826217063 / 4503599627370496 : ℚ)⌋₊ = 3 := by
      rw [Nat.floor_eq_iff (by norm_num)]
      norm_num
    rw [hfl, @Nat.log_eq_of_pow_le_of_lt_pow 2 1 3 (by norm_num) (by norm_num)]
    rfl
  have hrne : rne ((-(14186338826217063 / 4503599627370496) : ℚ) * 2 ^ ((52 : ℤ) - 1)) =
      -7093169413108532 := by
    have harg2 : (-(14186338826217063 / 4503599627370496) : ℚ) * 2 ^ ((52 : ℤ) - 1) =
        -(14186338826217063 / 2) := by norm_num
    rw [harg2]
    refine rne_tie_even _ (-7093169413108532) ?_ (by push_cast; norm_num) (by decide)
    rw [Int.floor_eq_iff]
    constructor <;> push_cast <;> norm_num
  rw [roundB64_concrete _ 1 (-7093169413108532) (by norm_num) hlog hrne]
  push_cast
  norm_num

/-- A tick whose first paddle collision is with a TOP guard and whose ball
crosses no wall: the vertical velocity is inverted and both components go
through the binary64 `*= 1.05`. -/
theorem tick_top_collision (s : ServerState) (code : String) (r1 r2 : Bool)
    (l : Lobby) (ps1 : List Paddle) (pad : Paddle) (ps2 : List Paddle)
    (h : s.lobbies code = some l)
    (hpl : l.gameState.status = GStatus.PLAYING)
    (hsplit : l.gameState.paddles = ps1 ++ pad :: ps2)
    (hmiss : ∀ q ∈ ps1, checkCollision (movedBall l.gameState.ball) q = false)
    (hhit : checkCollision (movedBall l.gameState.ball) pad = true)
    (htop : pad.position = Pos.TOP)
    (hb1 : ¬ (movedBall l.gameState.ball).y < 0)
    (hb2 : ¬ 600 < (movedBall l.gameState.ball).x)
    (hb3 : ¬ 600 < (movedBall l.gameState.ball).y)
    (hb4 : ¬ (movedBall l.gameState.ball).x < 0) :
    ∃ l', (updateBallPosition s code r1 r2).1.lobbies code = some l' ∧
      l'.gameState.ball.velocityX = mulB64 l.gameState.ball.velocityX lit105 ∧
      l'.gameState.ball.velocityY = mulB64 (-l.gameState.ball.velocityY) lit105 := by
  have hcol : applyCollision (movedBall l.gameState.ball) l.gameState.paddles =
      { movedBall l.gameState.ball with
        velocityX := mulB64 (movedBall l.gameState.ball).velocityX lit105
        velocityY := mulB64 (-(movedBall l.gameState.ball).velocityY) lit105 } := by
    rw [hsplit]
    exact applyCollision_top _ _ _ _ hmiss hhit htop
  have hstep : boundaryStep l.players l.gameState.scores
      (applyCollision (movedBall l.gameState.ball) l.gameState.paddles) r1 r2 =
      (l.gameState.scores, none,
        applyCollision (movedBall l.gameState.ball) l.gameState.paddles) := by
    conv =>
      rw [hcol]
    unfold boundaryStep
    dsimp only
    rw [if_neg hb1, if_neg hb2, if_neg hb3, if_neg hb4]
  simp only [updateBallPosition, h]
  rw [if_pos hpl]
  rw [hstep]
  dsimp only
  refine ⟨_, lobbiesSet_self _ _ _, ?_⟩
  rw [hcol]
  exact ⟨rfl, rfl⟩

/-- C9, counterexample: in the concrete PLAYING lobby the ball moving with
velocity (3, 3) collides with Alice's TOP paddle, and the resulting
velocity is (7093169413108532·2⁻⁵¹, −7093169413108532·2⁻⁵¹) =
(3.1500000000000004…, −3.1500000000000004…) — not exactly
(3.15, −3.15), because in binary64 arithmetic 3 × 1.05 does not equal
3.15. -/
theorem C9_counterexample :
    ∃ l', (updateBallPosition statePlaying "GAME" true true).1.lobbies "GAME" = some l' ∧
      l'.gameState.ball.velocityX = 7093169413108532 / 2251799813685248 ∧
      l'.gameState.ball.velocityY = -(7093169413108532 / 2251799813685248) ∧
      ¬ l'.gameState.ball.velocityX = 3.15 ∧
      ¬ l'.gameState.ball.velocityY = -3.15 := by
  obtain ⟨l', hlook, hcx, hcy⟩ :=
    tick_top_collision statePlaying "GAME" true true lobbyPlaying
      [] (paddleFor playerA) [paddleFor playerB]
      rfl rfl rfl (fun q hq => absurd hq (List.not_mem_nil q))
      (by norm_num [checkCollision, movedBall, lobbyPlaying, paddleFor, playerA]) rfl
      (by norm_num [movedBall, lobbyPlaying])
      (by norm_num [movedBall, lobbyPlaying])
      (by norm_num [movedBall, lobbyPlaying])
      (by norm_num [movedBall, lobbyPlaying])
  have hx : l'.gameState.ball.velocityX = 7093169413108532 / 2251799813685248 := by
    rw [hcx]
    exact mulB64_three
  have hy : l'.gameState.ball.velocityY = -(7093169413108532 / 2251799813685248) := by
    rw [hcy]
    exact mulB64_neg_three
  refine ⟨l', hlook, hx, hy, ?_, ?_⟩
  · rw [hx]
    norm_num
  · rw [hy]
    norm_num

/-- C9 (amended): a tick in which the ball, moving with velocity (3, 3),
first collides with a TOP-side paddle and crosses no wall leaves the ball
with velocity (fl(3·fl(1.05)), −fl(3·fl(1.05))) — the binary64 results
7093169413108532·2⁻⁵¹ = 3.1500000000000004… and its negation — which
differ from the real-arithmetic values (3.15, −3.15). -/
theorem C9_top_collision_b64 (s : ServerState) (code : String) (r1 r2 : Bool)
    (l : Lobby) (ps1 : List Paddle) (pad : Paddle) (ps2 : List Paddle)
    (h : s.lobbies code = some l)
    (hpl : l.gameState.status = GStatus.PLAYING)
    (hvx : l.gameState.ball.velocityX = 3)
    (hvy : l.gameState.ball.velocityY = 3)
    (hsplit : l.gameState.paddles = ps1 ++ pad :: ps2)
    (hmiss : ∀ q ∈ ps1, checkCollision (movedBall l.gameState.ball) q = false)
    (hhit : checkCollision (movedBall l.gameState.ball) pad = true)
    (htop : pad.position = Pos.TOP)
    (hb1 : ¬ (movedBall l.gameState.ball).y < 0)
    (hb2 : ¬ 600 < (movedBall l.gameState.ball).x)
    (hb3 : ¬ 600 < (movedBall l.gameState.ball).y)
    (hb4 : ¬ (movedBall l.gameState.ball).x < 0) :
    ∃ l', (updateBallPosition s code r1 r2).1.lobbies code = some l' ∧
      l'.gameState.ball.velocityX = mulB64 3 lit105 ∧
      l'.gameState.ball.velocityY = mulB64 (-3) lit105 ∧
      mulB64 3 lit105 = 7093169413108532 / 2251799813685248 ∧
      mulB64 (-3) lit105 = -(7093169413108532 / 2251799813685248) ∧
      ¬ mulB64 3 lit105 = 3.15 ∧
      ¬ mulB64 (-3) lit105 = -3.15 := by
  obtain ⟨l', hlook, hcx, hcy⟩ :=
    tick_top_collision s code r1 r2 l ps1 pad ps2 h hpl hsplit hmiss hhit htop hb1 hb2 hb3 hb4
  refine ⟨l', hlook, ?_, ?_, mulB64_three, mulB64_neg_three, ?_, ?_⟩
  · rw [hcx, hvx]
  · rw [hcy, hvy]
  · rw [mulB64_three]
    norm_num
  · rw [mulB64_neg_three]
    norm_num

/-- Witness for C9: in the concrete PLAYING lobby the ball at (300, 22)
with velocity (3, 3) moves to (303, 25) and collides with Alice's TOP
paddle. -/
theorem C9_top_collision_b64_witness :
    ∃ l', (updateBallPosition statePlaying "GAME" true true).1.lobbies "GAME" = some l' ∧
      l'.gameState.ball.velocityX = mulB64 3 lit105 ∧
      l'.gameState.ball.velocityY = mulB64 (-3) lit105 ∧
      mulB64 3 lit105 = 7093169413108532 / 2251799813685248 ∧
      mulB64 (-3) lit105 = -(7093169413108532 / 2251799813685248) ∧
      ¬ mulB64 3 lit105 = 3.15 ∧
      ¬ mulB64 (-3) lit105 = -3.15 :=
  C9_top_collision_b64 statePlaying "GAME" true true lobbyPlaying
    [] (paddleFor playerA) [paddleFor playerB]
    rfl rfl rfl rfl rfl (fun q hq => absurd hq (List.not_mem_nil q))
    (by norm_num [checkCollision, movedBall, lobbyPlaying, paddleFor, playerA]) rfl
    (by norm_num [movedBall, lobbyPlaying])
    (by norm_num [movedBall, lobbyPlaying])
    (by norm_num [movedBall, lobbyPlaying])
    (by norm_num [movedBall, lobbyPlaying])

/-- C8: in a PLAYING tick whose movement step ends with the ball above the
top wall (y < 0), exactly the BOTTOM guard's score grows by one — every
other entry, the TOP guard's included, is untouched — and the ball is
reset to (300, 300) with each velocity component independently
re-randomized to +3 or −3. -/
theorem C8_bottom_scores (s : ServerState) (code : String) (r1 r2 : Bool)
    (l : Lobby) (pB : Player) (v : ℚ)
    (h : s.lobbies code = some l)
    (hpl : l.gameState.status = GStatus.PLAYING)
    (hfind : l.players.find? (fun p => p.position = Pos.BOTTOM) = some pB)
    (hlow : (applyCollision (movedBall l.gameState.ball) l.gameState.paddles).y < 0)
    (hv : l.gameState.scores pB.id = some (some v)) :
    ∃ l', (updateBallPosition s code r1 r2).1.lobbies code = some l' ∧
      l'.gameState.scores pB.id = some (some (v + 1)) ∧
      (∀ k, k ≠ pB.id → l'.gameState.scores k = l.gameState.scores k) ∧
      l'.gameState.ball = resetBall r1 r2 ∧
      (resetBall r1 r2).x = 300 ∧ (resetBall r1 r2).y = 300 ∧
      (resetBall r1 r2).velocityX = (if r1 then 3 else -3) ∧
      (resetBall r1 r2).velocityY = (if r2 then 3 else -3) := by
  have hstep : boundaryStep l.players l.gameState.scores
      (applyCollision (movedBall l.gameState.ball) l.gameState.paddles) r1 r2 =
      (scoresIncr l.gameState.scores pB.id, some pB.id, resetBall r1 r2) := by
    unfold boundaryStep
    rw [if_pos hlow]
    unfold scoreAt
    rw [hfind]
  simp only [updateBallPosition, h]
  rw [if_pos hpl]
  rw [hstep]
  dsimp only
  split
  · obtain ⟨lfin, hlook, -, -, -, -, hball, hscores, -, -, -, -⟩ :=
      endGame_spec _ code (some pB.id) _ (lobbiesSet_self _ _ _)
    refine ⟨lfin, hlook, ?_, ?_, ?_, rfl, rfl, rfl, rfl⟩
    · rw [hscores]
      exact scoresIncr_self hv
    · intro k hk
      rw [hscores]
      exact scoresIncr_ne _ _ hk
    · rw [hball]
  · refine ⟨_, lobbiesSet_self _ _ _, ?_, ?_, rfl, rfl, rfl, rfl, rfl⟩
    · exact scoresIncr_self hv
    · intro k hk
      exact scoresIncr_ne _ _ hk

/-- Witness for C8: in the concrete lobby the ball at (300, 2) with
velocity (3, −3) crosses the top wall; Cara, the BOTTOM guard, goes from
nine to ten points and the ball is re-centered. -/
theorem C8_bottom_scores_witness :
    ∃ l', (updateBallPosition stateScoring "SCOR" true false).1.lobbies "SCOR" = some l' ∧
      l'.gameState.scores "C" = some (some (9 + 1)) ∧
      (∀ k, k ≠ "C" → l'.gameState.scores k = lobbyScoring.gameState.scores k) ∧
      l'.gameState.ball = resetBall true false ∧
      (resetBall true false).x = 300 ∧ (resetBall true false).y = 300 ∧
      (resetBall true false).velocityX = (if true then 3 else -3) ∧
      (resetBall true false).velocityY = (if false then 3 else -3) :=
  C8_bottom_scores stateScoring "SCOR" true false lobbyScoring playerC 9
    rfl rfl rfl
    (by norm_num [applyCollision, movedBall, lobbyScoring]) rfl

/-- The wall chain either leaves the scores untouched with no scorer, or
reports a scorer whose entry alone was incremented. -/
theorem boundaryStep_scorer (players : List Player) (scores : ScoresMap) (b : Ball)
    (r1 r2 : Bool) :
    ((boundaryStep players scores b r1 r2).1 = scores ∧
      (boundaryStep players scores b r1 r2).2.1 = none) ∨
    ∃ sid, (boundaryStep players scores b r1 r2).2.1 = some sid ∧
      (boundaryStep players scores b r1 r2).1 = scoresIncr scores sid := by
  unfold boundaryStep scoreAt
  split
  · split
    · right; exact ⟨_, rfl, rfl⟩
    · left; exact ⟨rfl, rfl⟩
  · split
    · split
      · right; exact ⟨_, rfl, rfl⟩
      · left; exact ⟨rfl, rfl⟩
    · split
      · split
        · right; exact ⟨_, rfl, rfl⟩
        · left; exact ⟨rfl, rfl⟩
      · split
        · split
          · right; exact ⟨_, rfl, rfl⟩
          · left; exact ⟨rfl, rfl⟩
        · left; exact ⟨rfl, rfl⟩

/-- C6: within one game no tick ever decreases a score — every numeric
entry either stays or grows by the tick — and the tick that brings an
entry from below ten to exactly ten sets the status to GAME_OVER in that
same tick; a tick on a lobby that is no longer PLAYING moves nothing at
all. -/
theorem C6_monotone_and_terminal (s : ServerState) (code : String) (r1 r2 : Bool)
    (l : Lobby) (h : s.lobbies code = some l) :
    (l.gameState.status ≠ GStatus.PLAYING → updateBallPosition s code r1 r2 = (s, [])) ∧
    ∃ l', (updateBallPosition s code r1 r2).1.lobbies code = some l' ∧
      (∀ k v, l.gameState.scores k = some (some v) →
        ∃ v', l'.gameState.scores k = some (some v') ∧ v ≤ v') ∧
      (∀ k v, l.gameState.scores k = some (some v) → v < 10 →
        l'.gameState.scores k = some (some 10) →
        l'.gameState.status = GStatus.GAME_OVER) := by
  by_cases hst : l.gameState.status = GStatus.PLAYING
  · refine ⟨fun hc => absurd hst hc, ?_⟩
    rcases boundaryStep_scorer l.players l.gameState.scores
        (applyCollision (movedBall l.gameState.ball) l.gameState.paddles) r1 r2 with
      ⟨hsc, hnone⟩ | ⟨sid, hsome, hincr⟩
    · simp only [updateBallPosition, h]
      rw [if_pos hst, hnone]
      refine ⟨_, lobbiesSet_self _ _ _, ?_, ?_⟩
      · intro k v hk
        dsimp only
        rw [hsc]
        exact ⟨v, hk, le_refl v⟩
      · intro k v hk hv hk10
        dsimp only at hk10
        rw [hsc, hk] at hk10
        have hv10 : v = 10 := by simpa using hk10
        rw [hv10] at hv
        exact absurd hv (lt_irrefl 10)
    · simp only [updateBallPosition, h]
      rw [if_pos hst, hsome]
      dsimp only
      by_cases hge : scoreGE10 ((boundaryStep l.players l.gameState.scores
          (applyCollision (movedBall l.gameState.ball) l.gameState.paddles) r1 r2).1 sid) = true
      · rw [if_pos hge]
        obtain ⟨lfin, hlook, hstatus, -, -, -, -, hscores, -, -, -, -⟩ :=
          endGame_spec _ code (some sid) _ (lobbiesSet_self _ _ _)
        refine ⟨lfin, hlook, ?_, fun _ _ _ _ _ => hstatus⟩
        intro k v hk
        rw [hscores]
        dsimp only
        rw [hincr]
        exact scoresIncr_mono hk
      · rw [if_neg hge]
        refine ⟨_, lobbiesSet_self _ _ _, ?_, ?_⟩
        · intro k v hk
          dsimp only
          rw [hincr]
          exact scoresIncr_mono hk
        · intro k v hk hv hk10
          dsimp only at hk10
          rw [hincr] at hk10
          by_cases hks : k = sid
          · subst hks
            have h2 := scoresIncr_self hk
            rw [h2] at hk10
            have hv1 : v + 1 = 10 := by simpa using hk10
            exfalso
            apply hge
            rw [hincr, h2]
            unfold scoreGE10
            rw [hv1]
            norm_num
          · rw [scoresIncr_ne _ _ hks, hk] at hk10
            have hv10 : v = 10 := by simpa using hk10
            rw [hv10] at hv
            exact absurd hv (lt_irrefl 10)
  · have hid := updateBallPosition_not_playing s code r1 r2 l h hst
    refine ⟨fun _ => hid, l, ?_, ?_, ?_⟩
    · rw [hid]
      exact h
    · intro k v hk
      exact ⟨v, hk, le_refl v⟩
    · intro k v hk hv hk10
      rw [hk] at hk10
      have hv10 : v = 10 := by simpa using hk10
      rw [hv10] at hv
      exact absurd hv (lt_irrefl 10)

/-- Witness for C6: the concrete scoring tick that takes Cara from nine to
ten points. -/
theorem C6_monotone_and_terminal_witness :
    (lobbyScoring.gameState.status ≠ GStatus.PLAYING →
      updateBallPosition stateScoring "SCOR" false true = (stateScoring, [])) ∧
    ∃ l', (updateBallPosition stateScoring "SCOR" false true).1.lobbies "SCOR" = some l' ∧
      (∀ k v, lobbyScoring.gameState.scores k = some (some v) →
        ∃ v', l'.gameState.scores k = some (some v') ∧ v ≤ v') ∧
      (∀ k v, lobbyScoring.gameState.scores k = some (some v) → v < 10 →
        l'.gameState.scores k = some (some 10) →
        l'.gameState.status = GStatus.GAME_OVER) :=
  C6_monotone_and_terminal stateScoring "SCOR" false true lobbyScoring rfl

/-! ## Tick-loop ownership invariant -/

theorem lobbiesDelete_ne (s : ServerState) (code : String) {c : String} (h : c ≠ code) :
    (lobbiesDelete s code).lobbies c = s.lobbies c := by
  simp [lobbiesDelete, h]

@[simp] theorem lobbiesDelete_self (s : ServerState) (code : String) :
    (lobbiesDelete s code).lobbies code = none := by
  simp [lobbiesDelete]

theorem removeFirstPlayer_length (ps : List Player) (pid : String) (x : Player)
    (h : ps.find? (fun p => p.id = pid) = some x) :
    (removeFirstPlayer ps pid).length + 1 = ps.length := by
  induction ps with
  | nil => cases h
  | cons p rest ih =>
    unfold removeFirstPlayer
    by_cases hp : p.id = pid
    · rw [if_pos hp]
      simp
    · rw [if_neg hp]
      rw [List.find?_cons_of_neg _ (by simpa using hp)] at h
      simp [← ih h]

/-- Overwriting a lobby with one of the same status and interval handle
preserves the server invariant, provided the new lobby satisfies its own
local invariant. -/
theorem inv_set_same (s : ServerState) (code : String) (lobby lobby' : Lobby)
    (h : s.lobbies code = some lobby)
    (hinv : Inv s)
    (hli : lobbyInv lobby')
    (hint : lobby'.gameLoopInterval = lobby.gameLoopInterval)
    (hst : lobby'.gameState.status = lobby.gameState.status) :
    Inv (lobbiesSet s code lobby') := by
  constructor
  · intro c lo hlo
    by_cases hcc : c = code
    · subst hcc
      rw [lobbiesSet_self] at hlo
      cases hlo
      exact hli
    · rw [lobbiesSet_ne _ _ _ hcc] at hlo
      exact hinv.1 c lo hlo
  · intro t c hm
    simp only [lobbiesSet_activeTimers] at hm
    obtain ⟨lo, hlo, hi, hs⟩ := hinv.2 t c hm
    by_cases hcc : c = code
    · subst hcc
      rw [h] at hlo
      cases hlo
      exact ⟨lobby', lobbiesSet_self _ _ _, by rw [hint]; exact hi, by rw [hst]; exact hs⟩
    · exact ⟨lo, by rw [lobbiesSet_ne _ _ _ hcc]; exact hlo, hi, hs⟩

/-- `endGame` restores the server invariant for its lobby: the ending
lobby leaves GAME_OVER with a cleared handle, and its timer (if any) is
cancelled. -/
theorem inv_endGame (s : ServerState) (code : String) (winnerId : Option String)
    (l : Lobby) (h : s.lobbies code = some l)
    (hOthers : ∀ c lo, c ≠ code → s.lobbies c = some lo → lobbyInv lo)
    (hTimers : ∀ t c, (t, c) ∈ s.activeTimers →
      ∃ lo, s.lobbies c = some lo ∧ lo.gameLoopInterval = some t ∧
        lo.gameState.status = GStatus.PLAYING) :
    Inv (endGame s code winnerId).1 := by
  obtain ⟨lfin, hlook, hstatus, hint, -, -, -, -, -, hothers, htimers, -⟩ :=
    endGame_spec s code winnerId l h
  constructor
  · intro c lo hlo
    by_cases hcc : c = code
    · subst hcc
      rw [hlook] at hlo
      cases hlo
      refine ⟨fun hp => ?_, fun _ => hint⟩
      rw [hstatus] at hp
      exact nomatch hp
    · rw [hothers c hcc] at hlo
      exact hOthers c lo hcc hlo
  · intro t c hm
    rw [htimers] at hm
    cases hil : l.gameLoopInterval with
    | some t0 =>
      rw [hil] at hm
      have hm' := List.mem_filter.mp hm
      obtain ⟨lo, hlo, hi, hs⟩ := hTimers t c hm'.1
      have hneq : ¬ t = t0 := by simpa using hm'.2
      by_cases hcc : c = code
      · subst hcc
        rw [h] at hlo
        cases hlo
        rw [hil] at hi
        cases hi
        exact absurd rfl hneq
      · exact ⟨lo, by rw [hothers c hcc]; exact hlo, hi, hs⟩
    | none =>
      rw [hil] at hm
      obtain ⟨lo, hlo, hi, hs⟩ := hTimers t c hm
      by_cases hcc : c = code
      · subst hcc
        rw [h] at hlo
        cases hlo
        rw [hil] at hi
        cases hi
      · exact ⟨lo, by rw [hothers c hcc]; exact hlo, hi, hs⟩

/-- `startGame` restores the server invariant for its lobby: the starting
lobby (with at least two players) becomes PLAYING and owns exactly the
freshly registered timer, any previous handle being cleared first. -/
theorem inv_startGame (s : ServerState) (code : String) (rvx rvy : Bool)
    (l : Lobby) (h : s.lobbies code = some l)
    (hlen : 2 ≤ l.players.length)
    (hOthers : ∀ c lo, c ≠ code → s.lobbies c = some lo → lobbyInv lo)
    (hTimers : ∀ t c, (t, c) ∈ s.activeTimers →
      ∃ lo, s.lobbies c = some lo ∧ lo.gameLoopInterval = some t ∧
        lo.gameState.status = GStatus.PLAYING) :
    Inv (startGame s code rvx rvy).1 := by
  obtain ⟨lfin, hlook, hstatus, hplayers, -, -, -, -, hintfin, hothers, htimers, -, -⟩ :=
    startGame_spec s code rvx rvy l h
  constructor
  · intro c lo hlo
    by_cases hcc : c = code
    · subst hcc
      rw [hlook] at hlo
      cases hlo
      exact ⟨fun _ => by rw [hplayers]; exact hlen, fun hnp => absurd hstatus hnp⟩
    · rw [hothers c hcc] at hlo
      exact hOthers c lo hcc hlo
  · intro t c hm
    rw [htimers] at hm
    rcases List.mem_append.mp hm with hold | hnew
    · cases hil : l.gameLoopInterval with
      | some t0 =>
        rw [hil] at hold
        have hm' := List.mem_filter.mp hold
        obtain ⟨lo, hlo, hi, hs⟩ := hTimers t c hm'.1
        have hneq : ¬ t = t0 := by simpa using hm'.2
        by_cases hcc : c = code
        · subst hcc
          rw [h] at hlo
          cases hlo
          rw [hil] at hi
          cases hi
          exact absurd rfl hneq
        · exact ⟨lo, by rw [hothers c hcc]; exact hlo, hi, hs⟩
      | none =>
        rw [hil] at hold
        obtain ⟨lo, hlo, hi, hs⟩ := hTimers t c hold
        by_cases hcc : c = code
        · subst hcc
          rw [h] at hlo
          cases hlo
          rw [hil] at hi
          cases hi
        · exact ⟨lo, by rw [hothers c hcc]; exact hlo, hi, hs⟩
    · have hpair : t = s.nextTimer ∧ c = code := by
        have := List.mem_singleton.mp hnew
        exact ⟨congrArg Prod.fst this, congrArg Prod.snd this⟩
      obtain ⟨rfl, rfl⟩ := hpair
      exact ⟨lfin, hlook, hintfin, hstatus⟩

theorem inv_create (s : ServerState) (hostName code hostId : String)
    (hfresh : s.lobbies code = none) (hinv : Inv s) :
    Inv (createLobby s hostName code hostId).1 := by
  by_cases hn : hostName = ""
  · simp only [createLobby, if_pos hn]
    exact hinv
  · simp only [createLobby, if_neg hn]
    constructor
    · intro c lo hlo
      by_cases hcc : c = code
      · subst hcc
        rw [lobbiesSet_self] at hlo
        cases hlo
        exact And.intro (fun hp => nomatch hp) (fun _ => rfl)
      · rw [lobbiesSet_ne _ _ _ hcc] at hlo
        exact hinv.1 c lo hlo
    · intro t c hm
      simp only [lobbiesSet_activeTimers] at hm
      obtain ⟨lo, hlo, hi, hs⟩ := hinv.2 t c hm
      have hcc : c ≠ code := by
        rintro rfl
        rw [hfresh] at hlo
        cases hlo
      exact ⟨lo, by rw [lobbiesSet_ne _ _ _ hcc]; exact hlo, hi, hs⟩

theorem inv_join (s : ServerState) (code name pid : String) (hinv : Inv s) :
    Inv (joinLobby s code name pid).1 := by
  by_cases h0 : code = "" ∨ name = ""
  · simp only [joinLobby, if_pos h0]
    exact hinv
  · cases hX : s.lobbies code with
    | none =>
      simp only [joinLobby, if_neg h0, hX]
      exact hinv
    | some lobby =>
      by_cases hfull : 4 ≤ lobby.players.length
      · simp only [joinLobby, if_neg h0, hX, if_pos hfull]
        exact hinv
      · simp only [joinLobby, if_neg h0, hX, if_neg hfull]
        have old := hinv.1 code lobby hX
        refine inv_set_same s code lobby _ hX hinv ⟨fun hp => ?_, old.2⟩ rfl rfl
        have := old.1 hp
        simp only [List.length_append, List.length_cons, List.length_nil]
        omega

theorem inv_move (s : ServerState) (code pid : String) (d : Direction) (hinv : Inv s) :
    Inv (handleMovePaddle s code pid d).1 := by
  cases hX : s.lobbies code with
  | none =>
    simp only [handleMovePaddle, hX]
    exact hinv
  | some lobby =>
    by_cases hst : lobby.gameState.status = GStatus.PLAYING
    · simp only [handleMovePaddle, hX]
      rw [if_pos hst]
      cases hF : lobby.gameState.paddles.find? (fun p => p.playerId = pid) with
      | none => exact hinv
      | some pad =>
        dsimp only
        have old := hinv.1 code lobby hX
        exact inv_set_same s code lobby _ hX hinv old rfl rfl
    · simp only [handleMovePaddle, hX]
      rw [if_neg hst]
      exact hinv

theorem inv_ready (s : ServerState) (code pid : String) (rvx rvy : Bool) (hinv : Inv s) :
    Inv (handlePlayerReady s code pid rvx rvy).1 := by
  cases hX : s.lobbies code with
  | none =>
    simp only [handlePlayerReady, hX]
    exact hinv
  | some lobby =>
    simp only [handlePlayerReady, hX]
    have old := hinv.1 code lobby hX
    by_cases hc : (setReadyFirst lobby.players pid).all (fun p => p.isReady) = true ∧
        2 ≤ (setReadyFirst lobby.players pid).length
    · rw [if_pos hc]
      apply inv_startGame _ code rvx rvy _ (lobbiesSet_self _ _ _) hc.2
      · intro c lo hcc hlo
        rw [lobbiesSet_ne _ _ _ hcc] at hlo
        exact hinv.1 c lo hlo
      · intro t c hm
        simp only [lobbiesSet_activeTimers] at hm
        obtain ⟨lo, hlo, hi, hs⟩ := hinv.2 t c hm
        by_cases hcc : c = code
        · subst hcc
          rw [hX] at hlo
          cases hlo
          exact ⟨_, lobbiesSet_self _ _ _, hi, hs⟩
        · exact ⟨lo, by rw [lobbiesSet_ne _ _ _ hcc]; exact hlo, hi, hs⟩
    · rw [if_neg hc]
      refine inv_set_same s code lobby _ hX hinv ⟨fun hp => ?_, old.2⟩ rfl rfl
      have := old.1 hp
      simpa [setReadyFirst_length] using this

theorem inv_afterLeave (s : ServerState) (code : String) (lobby lobby2 : Lobby)
    (nm : String)
    (h : s.lobbies code = some lobby)
    (hinv : Inv s)
    (hint : lobby2.gameLoopInterval = lobby.gameLoopInterval)
    (hst : lobby2.gameState.status = lobby.gameState.status) :
    Inv (afterLeave (lobbiesSet s code lobby2) code lobby2 nm).1 := by
  unfold afterLeave
  by_cases hp : lobby2.gameState.status = GStatus.PLAYING
  · rw [if_pos hp]
    dsimp only
    apply inv_endGame _ code none lobby2 (lobbiesSet_self _ _ _)
    · intro c lo hcc hlo
      rw [lobbiesSet_ne _ _ _ hcc] at hlo
      exact hinv.1 c lo hlo
    · intro t c hm
      simp only [lobbiesSet_activeTimers] at hm
      obtain ⟨lo, hlo, hi, hs⟩ := hinv.2 t c hm
      by_cases hcc : c = code
      · subst hcc
        rw [h] at hlo
        cases hlo
        exact ⟨lobby2, lobbiesSet_self _ _ _, by rw [hint]; exact hi, by rw [hst]; exact hs⟩
      · exact ⟨lo, by rw [lobbiesSet_ne _ _ _ hcc]; exact hlo, hi, hs⟩
  · rw [if_neg hp]
    have old := hinv.1 code lobby h
    apply inv_set_same s code lobby lobby2 h hinv ?_ hint hst
    refine ⟨fun hpp => absurd hpp hp, fun _ => ?_⟩
    rw [hint]
    apply old.2
    rw [← hst]
    exact hp

theorem inv_leave (s : ServerState) (code pid : String) (hinv : Inv s) :
    Inv (handlePlayerLeave s code pid).1 := by
  cases hX : s.lobbies code with
  | none =>
    simp only [handlePlayerLeave, hX]
    exact hinv
  | some lobby =>
    cases hF : lobby.players.find? (fun p => p.id = pid) with
    | none =>
      simp only [handlePlayerLeave, hX, hF]
      exact hinv
    | some leaver =>
      simp only [handlePlayerLeave, hX, hF]
      by_cases hH : lobby.host = pid
      · rw [if_pos hH]
        cases hR : removeFirstPlayer lobby.players pid with
        | nil =>
          dsimp only
          constructor
          · intro c lo hlo
            by_cases hcc : c = code
            · subst hcc
              rw [lobbiesDelete_self] at hlo
              cases hlo
            · rw [lobbiesDelete_ne _ _ hcc] at hlo
              exact hinv.1 c lo hlo
          · intro t c hm
            simp only [lobbiesDelete_activeTimers] at hm
            obtain ⟨lo, hlo, hi, hs⟩ := hinv.2 t c hm
            have hcc : c ≠ code := by
              rintro rfl
              rw [hX] at hlo
              cases hlo
              have h2 := (hinv.1 _ lobby hX).1 hs
              have hlen := removeFirstPlayer_length lobby.players pid leaver hF
              rw [hR] at hlen
              simp only [List.length_nil] at hlen
              omega
            exact ⟨lo, by rw [lobbiesDelete_ne _ _ hcc]; exact hlo, hi, hs⟩
        | cons q rest =>
          exact inv_afterLeave s code lobby _ leaver.name hX hinv rfl rfl
      · rw [if_neg hH]
        exact inv_afterLeave s code lobby _ leaver.name hX hinv rfl rfl

theorem inv_tick (s : ServerState) (code : String) (r1 r2 : Bool) (hinv : Inv s) :
    Inv (tick s code r1 r2).1 := by
  show Inv (updateBallPosition s code r1 r2).1
  cases hX : s.lobbies code with
  | none =>
    simp only [updateBallPosition, hX]
    exact hinv
  | some lobby =>
    by_cases hst : lobby.gameState.status = GStatus.PLAYING
    · simp only [updateBallPosition, hX]
      rw [if_pos hst]
      have old := hinv.1 code lobby hX
      rcases boundaryStep_scorer lobby.players lobby.gameState.scores
          (applyCollision (movedBall lobby.gameState.ball) lobby.gameState.paddles) r1 r2 with
        ⟨-, hnone⟩ | ⟨sid, hsome, -⟩
      · rw [hnone]
        dsimp only
        exact inv_set_same s code lobby _ hX hinv old rfl rfl
      · rw [hsome]
        dsimp only
        by_cases hge : scoreGE10 ((boundaryStep lobby.players lobby.gameState.scores
            (applyCollision (movedBall lobby.gameState.ball) lobby.gameState.paddles)
            r1 r2).1 sid) = true
        · rw [if_pos hge]
          apply inv_endGame _ code (some sid) _ (lobbiesSet_self _ _ _)
          · intro c lo hcc hlo
            rw [lobbiesSet_ne _ _ _ hcc] at hlo
            exact hinv.1 c lo hlo
          · intro t c hm
            simp only [lobbiesSet_activeTimers] at hm
            obtain ⟨lo, hlo, hi, hs⟩ := hinv.2 t c hm
            by_cases hcc : c = code
            · subst hcc
              rw [hX] at hlo
              cases hlo
              exact ⟨_, lobbiesSet_self _ _ _, hi, hs⟩
            · exact ⟨lo, by rw [lobbiesSet_ne _ _ _ hcc]; exact hlo, hi, hs⟩
        · rw [if_neg hge]
          exact inv_set_same s code lobby _ hX hinv old rfl rfl
    · simp only [updateBallPosition, hX]
      rw [if_neg hst]
      exact hinv

/-- One event-loop turn preserves the tick-loop ownership invariant. -/
theorem inv_step {s s' : ServerState} (hinv : Inv s) (hstep : Step s s') : Inv s' := by
  cases hstep with
  | create hostName code hostId hfresh => exact inv_create _ hostName code hostId hfresh hinv
  | join code name pid => exact inv_join _ code name pid hinv
  | ready code pid rvx rvy => exact inv_ready _ code pid rvx rvy hinv
  | move code pid d => exact inv_move _ code pid d hinv
  | leave code pid => exact inv_leave _ code pid hinv
  | tickFire t code r1 r2 hmem => exact inv_tick _ code r1 r2 hinv

/-- Every reachable server state satisfies the tick-loop ownership
invariant. -/
theorem inv_reachable {s : ServerState} (h : Reachable s) : Inv s := by
  induction h with
  | init =>
    exact And.intro (fun c l hl => nomatch hl)
      (fun t c hm => absurd hm (List.not_mem_nil _))
  | step hr hst ih => exact inv_step ih hst

/-- C4: at every reachable state, every live tick timer belongs to an
existing lobby that is still PLAYING and records that very handle — no
timer survives its lobby's destruction or its game's end — and every
lobby that is not PLAYING has a cleared (null) interval handle. -/
theorem C4_tick_loop_ownership (s : ServerState) (h : Reachable s) :
    (∀ t code, (t, code) ∈ s.activeTimers →
      ∃ l, s.lobbies code = some l ∧ l.gameState.status = GStatus.PLAYING ∧
        l.gameLoopInterval = some t) ∧
    (∀ code l, s.lobbies code = some l →
      l.gameState.status ≠ GStatus.PLAYING → l.gameLoopInterval = none) := by
  have hinv := inv_reachable h
  constructor
  · intro t code hm
    obtain ⟨l, hl, hi, hs⟩ := hinv.2 t code hm
    exact ⟨l, hl, hs, hi⟩
  · intro code l hl hnp
    exact (hinv.1 code l hl).2 hnp

/-- Witness for C4: the reachable state after creating Alice's lobby has
no orphaned timer and its WAITING lobby holds no interval handle. -/
theorem C4_tick_loop_ownership_witness :
    Reachable (createLobby initialState "Alice" "AAAA" "h1").1 ∧
    ((∀ t code, (t, code) ∈ (createLobby initialState "Alice" "AAAA" "h1").1.activeTimers →
      ∃ l, (createLobby initialState "Alice" "AAAA" "h1").1.lobbies code = some l ∧
        l.gameState.status = GStatus.PLAYING ∧ l.gameLoopInterval = some t) ∧
    (∀ code l, (createLobby initialState "Alice" "AAAA" "h1").1.lobbies code = some l →
      l.gameState.status ≠ GStatus.PLAYING → l.gameLoopInterval = none)) :=
  ⟨Reachable.step Reachable.init (Step.create initialState "Alice" "AAAA" "h1" rfl),
    C4_tick_loop_ownership (createLobby initialState "Alice" "AAAA" "h1").1
      (Reachable.step Reachable.init (Step.create initialState "Alice" "AAAA" "h1" rfl))⟩

end FourWayPong
